import Mathlib

/-!
Verification development for the PAROL6 commander core
(src/commander/commander.py and the modules it drives).

Each section shallowly embeds one part of the Python source:
pure byte-packing helpers become Lean functions on integers, the
stateful serial scanner becomes an explicit step function on a state
record, and the command state machines and the control-loop lifecycle
become step functions folded over per-cycle input lists.  Machine bytes
are integers with explicit `% 256` / `% 2^24` arithmetic where the
source masks or sign-extends.

Python integer semantics used throughout: for a positive modulus,
Python `%` and `//` agree with Lean `Int.emod` / `Int.ediv` (the `%`
and `/` notation on `Int`), and `x & 0xFFFFFF` equals `x % 16777216`.
-/

set_option maxRecDepth 16384

namespace Parol6

/-! ## Serial protocol byte helpers
Embedded from src/commander/commander.py, lines 146-178 and 540-574
(the module-level definitions there shadow the `serial_protocol`
imports, so they are the code that runs). -/

/-- commander.py line 147: `int_to_3_bytes = struct.Struct('>I').pack`,
the big-endian 4-byte encoding of a value in [0, 2^32). -/
def int_to_3_bytes (m : Int) : List Int :=
  [m / 16777216 % 256, m / 65536 % 256, m / 256 % 256, m % 256]

/-- commander.py lines 541-543: `Split_2_3_bytes`;
Python `var_in & 0xFFFFFF` is `var_in % 2^24`. -/
def Split_2_3_bytes (v : Int) : List Int :=
  int_to_3_bytes (v % 16777216)

/-- commander.py lines 546-547: `Split_2_bitfield`, most significant bit first:
`[(var_in >> i) & 1 for i in range(7, -1, -1)]`. -/
def Split_2_bitfield (v : Int) : List Int :=
  [v / 128 % 2, v / 64 % 2, v / 32 % 2, v / 16 % 2,
   v / 8 % 2, v / 4 % 2, v / 2 % 2, v % 2]

/-- commander.py lines 550-557: `Fuse_3_bytes` reads a 4-byte big-endian
buffer with `struct.unpack(">I", ...)` and sign-extends at 24 bits. -/
def Fuse_3_bytes (bs : List Int) : Int :=
  let u := bs.getD 0 0 * 16777216 + bs.getD 1 0 * 65536 + bs.getD 2 0 * 256 + bs.getD 3 0
  if u ≥ 8388608 then u - 16777216 else u

/-- commander.py lines 560-567: `Fuse_2_bytes` reads a 4-byte big-endian
buffer and sign-extends at 16 bits. -/
def Fuse_2_bytes (bs : List Int) : Int :=
  let u := bs.getD 0 0 * 16777216 + bs.getD 1 0 * 65536 + bs.getD 2 0 * 256 + bs.getD 3 0
  if u ≥ 32768 then u - 65536 else u

/-- commander.py lines 570-574: `Fuse_bitfield_2_bytearray`,
`number = (2 * number) + b` over the 8-entry bit list. -/
def Fuse_bitfield_2_bytearray (bits : List Int) : Int :=
  bits.foldl (fun n b => 2 * n + b) 0

/-- commander.py line 152: `start_bytes = [0xff, 0xff, 0xff]`. -/
def start_bytes : List Int := [255, 255, 255]

/-- commander.py line 155: `end_bytes = [0x01, 0x02]`. -/
def end_bytes : List Int := [1, 2]

/-- Result of `Pack_data`: the list of byte chunks it returns, plus the
`Gripper_data_out` array after the in-place one-shot mode reset
(commander.py lines 430-437 mutate the caller's list). -/
structure PackResult where
  chunks : List (List Int)
  gripperOut : List Int
deriving DecidableEq, Repr

/-- commander.py lines 364-449: `Pack_data`.  The six-iteration `for`
loops over positions and speeds are unrolled; `Position[i]` reads use
`getD i 0` (the caller always passes 6-element arrays).  The one-shot
reset of `Gripper_data_out[4]` happens between appending the mode byte
(old value) and the gripper ID byte, and only touches index 4, so the
emitted chunks use the pre-reset array throughout. -/
def Pack_data (Position_out Speed_out : List Int) (Command_out : Int)
    (Affected_joint_out InOut_out : List Int) (Timeout_out : Int)
    (Gripper_data_out : List Int) : PackResult :=
  let g := Gripper_data_out
  { chunks :=
      [start_bytes,
       [52],
       (Split_2_3_bytes (Position_out.getD 0 0)).drop 1,
       (Split_2_3_bytes (Position_out.getD 1 0)).drop 1,
       (Split_2_3_bytes (Position_out.getD 2 0)).drop 1,
       (Split_2_3_bytes (Position_out.getD 3 0)).drop 1,
       (Split_2_3_bytes (Position_out.getD 4 0)).drop 1,
       (Split_2_3_bytes (Position_out.getD 5 0)).drop 1,
       (Split_2_3_bytes (Speed_out.getD 0 0)).drop 1,
       (Split_2_3_bytes (Speed_out.getD 1 0)).drop 1,
       (Split_2_3_bytes (Speed_out.getD 2 0)).drop 1,
       (Split_2_3_bytes (Speed_out.getD 3 0)).drop 1,
       (Split_2_3_bytes (Speed_out.getD 4 0)).drop 1,
       (Split_2_3_bytes (Speed_out.getD 5 0)).drop 1,
       [Command_out],
       [Fuse_bitfield_2_bytearray Affected_joint_out],
       [Fuse_bitfield_2_bytearray InOut_out],
       [Timeout_out],
       (Split_2_3_bytes (g.getD 0 0)).drop 2,
       (Split_2_3_bytes (g.getD 1 0)).drop 2,
       (Split_2_3_bytes (g.getD 2 0)).drop 2,
       [g.getD 3 0],
       [g.getD 4 0],
       [g.getD 5 0],
       [228],
       end_bytes],
    gripperOut := if g.getD 4 0 = 1 ∨ g.getD 4 0 = 2 then g.set 4 0 else g }

/-- The outbound frame as the flat byte stream written to the serial
port (the chunks are written back to back). -/
def packFlat (r : PackResult) : List Int :=
  r.chunks.flatten

/-- Everything `Unpack_data` computes from a received frame buffer.
`Timeout_error` and `XTR_data` are computed by the source as well
(the Python assignments rebind locals, but the values are the same). -/
structure UnpackResult where
  Position_in : List Int
  Speed_in : List Int
  Homed_in : List Int
  InOut_in : List Int
  Temperature_error_in : List Int
  Position_error_in : List Int
  Timing_data : Int
  Timeout_error : Int
  XTR_data : Int
  Gripper_data_in : List Int
deriving DecidableEq, Repr

/-- commander.py lines 275-362: `Unpack_data` over the frame buffer,
modelled as a function from byte index to byte value.  The CRC byte at
index 53 and the end bytes at 54-55 are read but never used; the
gripper object-detection value is bits 2-3 of the status byte at
index 51 (the raw byte at index 52 is ignored as unreliable). -/
def Unpack_data (buf : Nat → Int) : UnpackResult :=
  let fuse3 := fun i => Fuse_3_bytes [0, buf i, buf (i + 1), buf (i + 2)]
  let fuse2 := fun i => Fuse_2_bytes [0, 0, buf i, buf (i + 1)]
  let statusBits := Split_2_bitfield (buf 51)
  { Position_in := [fuse3 0, fuse3 3, fuse3 6, fuse3 9, fuse3 12, fuse3 15],
    Speed_in := [fuse3 18, fuse3 21, fuse3 24, fuse3 27, fuse3 30, fuse3 33],
    Homed_in := Split_2_bitfield (buf 36),
    InOut_in := Split_2_bitfield (buf 37),
    Temperature_error_in := Split_2_bitfield (buf 38),
    Position_error_in := Split_2_bitfield (buf 39),
    Timing_data := Fuse_3_bytes [0, 0, buf 40, buf 41],
    Timeout_error := buf 42,
    XTR_data := buf 43,
    Gripper_data_in :=
      [buf 44, fuse2 45, fuse2 47, fuse2 49, buf 51,
       statusBits.getD 2 0 * 2 + statusBits.getD 3 0] }

/-- C3: for every integer v in [-2^23, 2^23 - 1], fusing the three low
bytes produced by `Split_2_3_bytes v` with `Fuse_3_bytes` (prefixed by
a zero byte, as `Unpack_data` does) returns exactly v, and for every
integer w in [-2^15, 2^15 - 1], fusing the two low bytes with
`Fuse_2_bytes` (prefixed by two zero bytes) returns exactly w. -/
theorem C3_pack_unpack_roundtrip (v w : Int)
    (hv1 : -8388608 ≤ v) (hv2 : v < 8388608)
    (hw1 : -32768 ≤ w) (hw2 : w < 32768) :
    Fuse_3_bytes (0 :: (Split_2_3_bytes v).drop 1) = v ∧
    Fuse_2_bytes (0 :: 0 :: (Split_2_3_bytes w).drop 2) = w := by
  constructor
  · simp only [Fuse_3_bytes, Split_2_3_bytes, int_to_3_bytes, List.drop,
      List.getD_cons_zero, List.getD_cons_succ]
    split <;> omega
  · simp only [Fuse_2_bytes, Split_2_3_bytes, int_to_3_bytes, List.drop,
      List.getD_cons_zero, List.getD_cons_succ]
    split <;> omega

/-- Witness for C3 at v = -5 and w = -3. -/
theorem C3_pack_unpack_roundtrip_witness :
    Fuse_3_bytes (0 :: (Split_2_3_bytes (-5)).drop 1) = -5 ∧
    Fuse_2_bytes (0 :: 0 :: (Split_2_3_bytes (-3)).drop 2) = -3 :=
  C3_pack_unpack_roundtrip (-5) (-3) (by decide) (by decide) (by decide) (by decide)

/-- C6: the gripper mode field is a one-shot.  Whenever `Pack_data`
runs with `Gripper_data_out[4]` equal to 1 (calibrate) or 2
(clear-error), the frame it emits carries the old mode byte (flat frame
index 51), the stored mode is reset to 0 before returning, and the
frame packed on the immediately following cycle from the updated array
carries mode byte 0; a mode of 0 leaves the array unchanged. -/
theorem C6_gripper_mode_one_shot
    (P S A Io : List Int) (cmd tout : Int) (g : List Int)
    (P2 S2 A2 Io2 : List Int) (cmd2 tout2 : Int) :
    (packFlat (Pack_data P S cmd A Io tout g))[51]? = some (g.getD 4 0) ∧
    ((g.getD 4 0 = 1 ∨ g.getD 4 0 = 2) →
      (Pack_data P S cmd A Io tout g).gripperOut.getD 4 0 = 0 ∧
      (packFlat (Pack_data P2 S2 cmd2 A2 Io2 tout2
          (Pack_data P S cmd A Io tout g).gripperOut))[51]? = some 0) ∧
    (g.getD 4 0 = 0 → (Pack_data P S cmd A Io tout g).gripperOut = g) := by
  have hfr : ∀ (Pa Sa : List Int) (ca : Int) (Aa Ia : List Int) (ta : Int) (ga : List Int),
      (packFlat (Pack_data Pa Sa ca Aa Ia ta ga))[51]? = some (ga.getD 4 0) := by
    intro Pa Sa ca Aa Ia ta ga
    rfl
  refine ⟨hfr P S cmd A Io tout g, ?_, ?_⟩
  · intro h
    have hlen : 4 < g.length := by
      rcases Nat.lt_or_ge 4 g.length with hlt | hge
      · exact hlt
      · rw [List.getD_eq_default _ _ hge] at h
        rcases h with h | h <;> exact absurd h (by norm_num)
    have hout : (Pack_data P S cmd A Io tout g).gripperOut = g.set 4 0 := by
      simp only [Pack_data]
      rw [if_pos h]
    have hset : (g.set 4 0).getD 4 0 = 0 := by
      simp [List.getD, List.getElem?_set_eq_of_lt _ hlen]
    refine ⟨by rw [hout]; exact hset, ?_⟩
    rw [hfr, hout, hset]
  · intro h
    simp only [Pack_data]
    rw [if_neg]
    rw [h]
    norm_num

/-- Witness for C6: with `Gripper_data_out = [9, 9, 9, 9, 1, 7]` (mode 1,
calibrate) the packed mode byte is 1, the stored mode resets to 0, and
the next cycle packs mode byte 0. -/
theorem C6_gripper_mode_one_shot_witness :
    (packFlat (Pack_data [0,0,0,0,0,0] [0,0,0,0,0,0] 255 [1,1,1,1,1,1,1,1]
        [0,0,0,0,0,0,0,0] 0 [9,9,9,9,1,7]))[51]? = some 1 ∧
    (Pack_data [0,0,0,0,0,0] [0,0,0,0,0,0] 255 [1,1,1,1,1,1,1,1]
        [0,0,0,0,0,0,0,0] 0 [9,9,9,9,1,7]).gripperOut.getD 4 0 = 0 ∧
    (packFlat (Pack_data [0,0,0,0,0,0] [0,0,0,0,0,0] 255 [1,1,1,1,1,1,1,1]
        [0,0,0,0,0,0,0,0] 0
        (Pack_data [0,0,0,0,0,0] [0,0,0,0,0,0] 255 [1,1,1,1,1,1,1,1]
          [0,0,0,0,0,0,0,0] 0 [9,9,9,9,1,7]).gripperOut))[51]? = some 0 := by
  have h := C6_gripper_mode_one_shot [0,0,0,0,0,0] [0,0,0,0,0,0] [1,1,1,1,1,1,1,1]
    [0,0,0,0,0,0,0,0] 255 0 [9,9,9,9,1,7] [0,0,0,0,0,0] [0,0,0,0,0,0]
    [1,1,1,1,1,1,1,1] [0,0,0,0,0,0,0,0] 255 0
  exact ⟨h.1, (h.2.1 (by decide)).1, (h.2.1 (by decide)).2⟩

/-- C10: the CRC byte carries no information in either direction.
`Pack_data` always emits the constant 228 as the outbound CRC byte
(flat frame index 53) regardless of frame contents, and `Unpack_data`
computes the same feedback values no matter what value the CRC byte at
buffer index 53 holds (the byte is read but never validated). -/
theorem C10_crc_uninformative :
    (∀ (P S : List Int) (cmd : Int) (A Io : List Int) (tout : Int) (g : List Int),
      (packFlat (Pack_data P S cmd A Io tout g))[53]? = some 228) ∧
    (∀ (buf : Nat → Int) (v : Int),
      Unpack_data (Function.update buf 53 v) = Unpack_data buf) := by
  constructor
  · intro P S cmd A Io tout g
    rfl
  · intro buf v
    rfl

/-! ## Inbound serial byte scanner (Get_data)
Embedded from src/commander/commander.py lines 451-538 with the global
scanner state from lines 162-179. -/

/-- State of the `Get_data` byte scanner.  Python keeps the condition
flags as 0/1 integers; they are Booleans here.  `data_buffer` has 255
slots initialised to `None` (line 178: `[None]*255`); a slot holds
`some b` once a byte has been written to it.  `crashed` models the
`IndexError` a buffer write past index 254 would raise (the exception
escapes the loop's `except serial.SerialException` handler, so no
further byte would be processed). -/
structure ScanState where
  start_cond1 : Bool
  start_cond2 : Bool
  start_cond3 : Bool
  good_start : Bool
  data_len : Int
  data_counter : Int
  data_buffer : List (Option Int)
  crashed : Bool
deriving DecidableEq, Repr

/-- Initial scanner state (commander.py lines 171-179). -/
def scanInit : ScanState :=
  { start_cond1 := false, start_cond2 := false, start_cond3 := false,
    good_start := false, data_len := 0, data_counter := 0,
    data_buffer := List.replicate 255 none, crashed := false }

/-- Python list indexing with negative-index wraparound, as used by
`data_buffer[data_len - 1]` and `data_buffer[data_len - 2]` in the
end-byte check (for `data_len < 2` the second read wraps to the end of
the buffer). -/
def pyBufGet (buf : List (Option Int)) (i : Int) : Option Int :=
  if 0 ≤ i then (buf[i.toNat]?).getD none
  else if 0 ≤ i + buf.length then (buf[(i + (buf.length : Int)).toNat]?).getD none
  else none

/-- One byte of `Get_data` (commander.py lines 472-538).  The four
`if`/`elif` groups of the start-byte search run sequentially on the
same mutable flags, so each group reads the flags as left by the
previous group; `start_cond1_byte = start_cond2_byte = start_cond3_byte
= 0xff`.  In the data phase the byte is stored at `data_counter`, and
when `data_counter == data_len - 1` the end-byte check compares buffer
slots `data_len - 1` and `data_len - 2` against 0x02 and 0x01; the
returned Boolean records whether `Unpack_data` was invoked.  All flags
and counters are reset at the end of a frame whether or not the end
bytes matched. -/
def scanStep (s : ScanState) (b : Int) : ScanState × Bool :=
  if s.crashed then (s, false)
  else if s.good_start = false then
    let s1 := if s.start_cond1 && s.start_cond2 && s.start_cond3 then
                { s with good_start := true, data_len := b }
              else s
    let s2 := if (b == 255) && s1.start_cond2 && s1.start_cond1 then
                { s1 with start_cond3 := true }
              else if s1.start_cond2 && s1.start_cond1 then
                { s1 with start_cond1 := false, start_cond2 := false }
              else s1
    let s3 := if (b == 255) && s2.start_cond1 then
                { s2 with start_cond2 := true }
              else if s2.start_cond1 then
                { s2 with start_cond1 := false }
              else s2
    let s4 := if b == 255 then { s3 with start_cond1 := true } else s3
    (s4, false)
  else
    if s.data_counter < 0 ∨ 255 ≤ s.data_counter then
      ({ s with crashed := true }, false)
    else
      let buf := s.data_buffer.set s.data_counter.toNat (some b)
      if s.data_counter = s.data_len - 1 then
        ({ s with start_cond1 := false, start_cond2 := false, start_cond3 := false,
                  good_start := false, data_len := 0, data_counter := 0,
                  data_buffer := buf },
         decide (pyBufGet buf (s.data_len - 1) = some 2 ∧
           pyBufGet buf (s.data_len - 2) = some 1))
      else
        ({ s with data_buffer := buf, data_counter := s.data_counter + 1 }, false)

/-- Feed a byte list to the scanner, collecting an event
`(position, data_len)` for every byte whose processing invoked
`Unpack_data` (`position` counts bytes consumed before that byte,
`data_len` is the frame length in force at that moment). -/
def scanRunAux : ScanState → List Int → Nat → ScanState × List (Nat × Int)
  | s, [], _ => (s, [])
  | s, b :: rest, pos =>
    let r := scanStep s b
    let rr := scanRunAux r.1 rest (pos + 1)
    (rr.1, (if r.2 then [(pos, s.data_len)] else []) ++ rr.2)

/-- The `Unpack_data` invocations that a byte stream triggers when fed
to a freshly initialised scanner. -/
def scanEvents (bs : List Int) : List (Nat × Int) :=
  (scanRunAux scanInit bs 0).2

/-- A junk frame of declared length 255 whose last data byte is 0x01
(leaving `some 1` in buffer slot 254), followed by a frame of declared
length 1 whose single data byte is 0x02. -/
def c7Stream : List Int :=
  [255, 255, 255, 255] ++ List.replicate 254 0 ++ [1] ++ [255, 255, 255, 1, 2]

set_option maxRecDepth 4096 in
/-- C7 counterexample: on `c7Stream` the scanner invokes `Unpack_data`
at stream position 263 for a frame whose length byte is 1 — only one
byte was accumulated for that frame, so the claim's requirement that
the *final two accumulated bytes* equal 0x01 0x02 cannot hold (the
second compared byte is a stale slot left over from the earlier junk
frame, reached through Python negative indexing). -/
theorem C7_counterexample :
    scanEvents c7Stream = [(263, 1)] ∧ ¬(2 ≤ (1 : Int)) := by
  exact ⟨by decide, by decide⟩

/-- If an optional lookup succeeds the index is within bounds. -/
lemma getElem?_some_lt {α : Type} (l : List α) (n : Nat) (a : α)
    (h : l[n]? = some a) : n < l.length := by
  by_contra hn
  rw [List.getElem?_eq_none (by omega)] at h
  exact absurd h (by simp)

/-- Appending one element and reading at the old length yields it. -/
lemma append_singleton_get_last {α : Type} (p : List α) (b : α) :
    (p ++ [b])[p.length]? = some b := by
  rw [List.getElem?_append_right (le_refl _)]
  simp

/-- Reading the buffer at the slot just written. -/
lemma pyBufGet_set_self (buf : List (Option Int)) (i : Int) (b : Int)
    (h0 : 0 ≤ i) (h1 : i < (buf.length : Int)) :
    pyBufGet (buf.set i.toNat (some b)) i = some b := by
  unfold pyBufGet
  rw [if_pos h0]
  have hN : i.toNat < buf.length := by omega
  rw [List.getElem?_set_eq_of_lt _ hN]
  rfl

/-- Reading the buffer away from the slot just written. -/
lemma pyBufGet_set_ne (buf : List (Option Int)) (i k : Int) (b : Int)
    (h0 : 0 ≤ i) (hk : 0 ≤ k) (hne : i ≠ k) :
    pyBufGet (buf.set k.toNat (some b)) i = pyBufGet buf i := by
  unfold pyBufGet
  rw [if_pos h0, if_pos h0]
  rw [List.getElem?_set_ne (by omega : k.toNat ≠ i.toNat)]

/-- What holds of every `Unpack_data` invocation `ev = (pos, L)` on
stream `bs`: three consecutive 0xff start bytes at j, j+1, j+2, the
length byte L at j+3, exactly L further accumulated bytes so that the
invoking byte sits at `pos = j + 3 + L`, the invoking byte (buffer slot
L-1) equals 0x02, and — when L ≥ 2, so that slot L-2 belongs to the
current frame — the previously accumulated byte equals 0x01. -/
def SafeEv (bs : List Int) (ev : Nat × Int) : Prop :=
  ∃ j : Nat, bs[j]? = some 255 ∧ bs[j + 1]? = some 255 ∧ bs[j + 2]? = some 255 ∧
    bs[j + 3]? = some ev.2 ∧ 1 ≤ ev.2 ∧ ev.2 ≤ 255 ∧
    ((ev.1 : Int) = (j : Int) + 3 + ev.2) ∧
    bs[ev.1]? = some 2 ∧ (2 ≤ ev.2 → bs[ev.1 - 1]? = some 1)

/-- `SafeEv` only constrains positions inside `bs`, so it survives
extending the stream on the right. -/
lemma SafeEv_append (bs ext : List Int) (ev : Nat × Int)
    (h : SafeEv bs ev) : SafeEv (bs ++ ext) ev := by
  obtain ⟨j, h1, h2, h3, h4, h5, h6, h7, h8, h9⟩ := h
  have l1 := getElem?_some_lt _ _ _ h1
  have l2 := getElem?_some_lt _ _ _ h2
  have l3 := getElem?_some_lt _ _ _ h3
  have l4 := getElem?_some_lt _ _ _ h4
  have l8 := getElem?_some_lt _ _ _ h8
  refine ⟨j, ?_, ?_, ?_, ?_, h5, h6, h7, ?_, ?_⟩
  · rw [List.getElem?_append_left l1]; exact h1
  · rw [List.getElem?_append_left l2]; exact h2
  · rw [List.getElem?_append_left l3]; exact h3
  · rw [List.getElem?_append_left l4]; exact h4
  · rw [List.getElem?_append_left l8]; exact h8
  · intro hL
    rw [List.getElem?_append_left (by omega)]
    exact h9 hL

/-- Invariant tying the scanner state to the prefix `p` of bytes it has
consumed.  While scanning for a start: each asserted condition flag
certifies the corresponding run of trailing 0xff bytes, and the length
and counter are zero.  After a good start: the stream contains the
three 0xff bytes and the length byte at a position `j` consistent with
the counter, and the most recently accumulated byte sits in buffer slot
`data_counter - 1`.  A crashed scanner satisfies the invariant
trivially (it never unpacks again). -/
def ScanInv (p : List Int) (s : ScanState) : Prop :=
  s.crashed = true ∨
  (s.data_buffer.length = 255 ∧
    (s.good_start = false →
      s.data_len = 0 ∧ s.data_counter = 0 ∧
      (s.start_cond1 = true → p[p.length - 1]? = some 255 ∧ 1 ≤ p.length) ∧
      (s.start_cond2 = true → s.start_cond1 = true ∧
        p[p.length - 2]? = some 255 ∧ 2 ≤ p.length) ∧
      (s.start_cond3 = true → s.start_cond1 = true ∧ s.start_cond2 = true ∧
        p[p.length - 3]? = some 255 ∧ 3 ≤ p.length)) ∧
    (s.good_start = true →
      0 ≤ s.data_len ∧ s.data_len ≤ 255 ∧ 0 ≤ s.data_counter ∧ s.data_counter ≤ 255 ∧
      ∃ j : Nat, p[j]? = some 255 ∧ p[j + 1]? = some 255 ∧ p[j + 2]? = some 255 ∧
        p[j + 3]? = some s.data_len ∧
        ((p.length : Int) = (j : Int) + 4 + s.data_counter) ∧
        (1 ≤ s.data_counter →
          pyBufGet s.data_buffer (s.data_counter - 1) = p[p.length - 1]?)))

/-- The freshly initialised scanner satisfies the invariant. -/
lemma scanInv_init : ScanInv [] scanInit := by
  refine Or.inr ⟨by simp [scanInit], ?_, ?_⟩
  · intro _
    refine ⟨rfl, rfl, ?_, ?_, ?_⟩ <;> intro h <;> simp [scanInit] at h
  · intro h
    simp [scanInit] at h
/-- One scanner step preserves the invariant, and any step that fires
`Unpack_data` satisfies `SafeEv` on the extended prefix. -/
lemma scanInv_step (p : List Int) (s : ScanState) (b : Int)
    (hb0 : 0 ≤ b) (hb1 : b ≤ 255) (hinv : ScanInv p s) :
    ScanInv (p ++ [b]) (scanStep s b).1 ∧
    ((scanStep s b).2 = true → SafeEv (p ++ [b]) (p.length, s.data_len)) := by
  have hplen : (p ++ [b]).length = p.length + 1 := by simp
  cases hcr : s.crashed with
  | true =>
    constructor
    · exact Or.inl (by simp [scanStep, hcr])
    · simp [scanStep, hcr]
  | false =>
  rcases hinv with hcr2 | ⟨hlen, hscan, hdata⟩
  · rw [hcr] at hcr2; exact absurd hcr2 (by simp)
  cases hgood : s.good_start with
  | false =>
    obtain ⟨hd0, hc0, hf1, hf2, hf3⟩ := hscan hgood
    cases hsc3 : s.start_cond3 with
    | true =>
      obtain ⟨hc1, hc2, hp3, hl3⟩ := hf3 hsc3
      obtain ⟨hp2, hl2⟩ := (hf2 hc2).2
      obtain ⟨hp1, hl1⟩ := hf1 hc1
      -- all three start flags set: this byte is consumed as the length byte
      have hgoal : ∀ t : ScanState, t.data_buffer = s.data_buffer →
          t.good_start = true → t.data_len = b → t.data_counter = 0 →
          ScanInv (p ++ [b]) t := by
        intro t htb htg htl htc
        refine Or.inr ⟨by rw [htb]; exact hlen, by rw [htg]; intro h; simp at h, ?_⟩
        intro _
        rw [htl, htc]
        refine ⟨hb0, hb1, le_refl 0, by norm_num, ⟨p.length - 3, ?_, ?_, ?_, ?_, ?_, ?_⟩⟩
        · rw [List.getElem?_append_left (by omega)]
          simpa using hp3
        · rw [List.getElem?_append_left (by omega)]
          have h9 : p.length - 3 + 1 = p.length - 2 := by omega
          rw [h9]; exact hp2
        · rw [List.getElem?_append_left (by omega)]
          have h9 : p.length - 3 + 2 = p.length - 1 := by omega
          rw [h9]; exact hp1
        · have h9 : p.length - 3 + 3 = p.length := by omega
          rw [h9]
          exact append_singleton_get_last p b
        · rw [hplen]
          push_cast
          omega
        · intro h; omega
      by_cases hb : b = 255
      · have hstep : scanStep s b =
            ({ s with good_start := true, data_len := b }, false) := by
          simp [scanStep, hcr, hgood, hc1, hc2, hsc3, hb]
        rw [hstep]
        exact ⟨hgoal _ rfl rfl rfl hc0, by intro h; simp at h⟩
      · have hstep : scanStep s b =
            ({ s with good_start := true, data_len := b,
                      start_cond1 := false, start_cond2 := false }, false) := by
          simp [scanStep, hcr, hgood, hc1, hc2, hsc3, hb]
        rw [hstep]
        exact ⟨hgoal _ rfl rfl rfl hc0, by intro h; simp at h⟩
    | false =>
      -- still hunting for the start sequence: no fire, flags track trailing 0xff
      have hvac : ∀ t : ScanState, t.data_buffer = s.data_buffer →
          t.good_start = false → t.data_len = 0 → t.data_counter = 0 →
          t.start_cond1 = false → t.start_cond2 = false → t.start_cond3 = false →
          ScanInv (p ++ [b]) t := by
        intro t htb htg htl htc ht1 ht2 ht3
        refine Or.inr ⟨by rw [htb]; exact hlen, ?_, by rw [htg]; intro h; simp at h⟩
        intro _
        exact ⟨htl, htc, by rw [ht1]; intro h; simp at h,
          by rw [ht2]; intro h; simp at h, by rw [ht3]; intro h; simp at h⟩
      cases hsc1 : s.start_cond1 with
      | false =>
        cases hsc2 : s.start_cond2 with
        | true => exact absurd (hf2 hsc2).1 (by simp [hsc1])
        | false =>
          by_cases hb : b = 255
          · have hstep : scanStep s b = ({ s with start_cond1 := true }, false) := by
              simp [scanStep, hcr, hgood, hsc1, hsc2, hsc3, hb]
            rw [hstep]
            refine ⟨Or.inr ⟨hlen, ?_, by intro h; rw [hgood] at h; simp at h⟩, by intro h; simp at h⟩
            intro _
            refine ⟨hd0, hc0, ?_, by intro h; simp [hsc2] at h, by intro h; simp [hsc3] at h⟩
            intro _
            refine ⟨?_, by omega⟩
            rw [hplen]
            have h9 : p.length + 1 - 1 = p.length := by omega
            rw [h9, hb]
            exact append_singleton_get_last p 255
          · have hstep : scanStep s b = (s, false) := by
              simp [scanStep, hcr, hgood, hsc1, hsc2, hsc3, hb]
            rw [hstep]
            exact ⟨hvac s rfl hgood hd0 hc0 hsc1 hsc2 hsc3, by intro h; simp at h⟩
      | true =>
        obtain ⟨hp1, hl1⟩ := hf1 hsc1
        cases hsc2 : s.start_cond2 with
        | false =>
          by_cases hb : b = 255
          · have hstep : scanStep s b =
                ({ s with start_cond2 := true, start_cond1 := true }, false) := by
              simp [scanStep, hcr, hgood, hsc1, hsc2, hsc3, hb]
            rw [hstep]
            refine ⟨Or.inr ⟨hlen, ?_, by intro h; rw [hgood] at h; simp at h⟩, by intro h; simp at h⟩
            intro _
            refine ⟨hd0, hc0, ?_, ?_, by intro h; simp [hsc3] at h⟩
            · intro _
              refine ⟨?_, by omega⟩
              rw [hplen]
              have h9 : p.length + 1 - 1 = p.length := by omega
              rw [h9, hb]
              exact append_singleton_get_last p 255
            · intro _
              refine ⟨rfl, ?_, by omega⟩
              rw [hplen]
              have h9 : p.length + 1 - 2 = p.length - 1 := by omega
              rw [h9, List.getElem?_append_left (by omega)]
              exact hp1
          · have hstep : scanStep s b = ({ s with start_cond1 := false }, false) := by
              simp [scanStep, hcr, hgood, hsc1, hsc2, hsc3, hb]
            rw [hstep]
            exact ⟨hvac _ rfl hgood hd0 hc0 rfl hsc2 hsc3, by intro h; simp at h⟩
        | true =>
          obtain ⟨_, hp2, hl2⟩ := hf2 hsc2
          by_cases hb : b = 255
          · have hstep : scanStep s b =
                ({ s with start_cond3 := true, start_cond2 := true,
                          start_cond1 := true }, false) := by
              simp [scanStep, hcr, hgood, hsc1, hsc2, hsc3, hb]
            rw [hstep]
            refine ⟨Or.inr ⟨hlen, ?_, by intro h; rw [hgood] at h; simp at h⟩, by intro h; simp at h⟩
            intro _
            refine ⟨hd0, hc0, ?_, ?_, ?_⟩
            · intro _
              refine ⟨?_, by omega⟩
              rw [hplen]
              have h9 : p.length + 1 - 1 = p.length := by omega
              rw [h9, hb]
              exact append_singleton_get_last p 255
            · intro _
              refine ⟨rfl, ?_, by omega⟩
              rw [hplen]
              have h9 : p.length + 1 - 2 = p.length - 1 := by omega
              rw [h9, List.getElem?_append_left (by omega)]
              exact hp1
            · intro _
              refine ⟨rfl, rfl, ?_, by omega⟩
              rw [hplen]
              have h9 : p.length + 1 - 3 = p.length - 2 := by omega
              rw [h9, List.getElem?_append_left (by omega)]
              exact hp2
          · have hstep : scanStep s b =
                ({ s with start_cond1 := false, start_cond2 := false }, false) := by
              simp [scanStep, hcr, hgood, hsc1, hsc2, hsc3, hb]
            rw [hstep]
            exact ⟨hvac _ rfl hgood hd0 hc0 rfl rfl hsc3, by intro h; simp at h⟩
  | true =>
    obtain ⟨hl0, hl255, hct0, hct255, j, hj1, hj2, hj3, hj4, hjlen, hslot⟩ := hdata hgood
    have hjlt : j + 3 < p.length := by omega
    by_cases hover : s.data_counter < 0 ∨ 255 ≤ s.data_counter
    · have e1 : (s.data_counter < 0 ∨ 255 ≤ s.data_counter) = True := by
        simp only [eq_iff_iff, iff_true]; exact hover
      have hstep : scanStep s b = ({ s with crashed := true }, false) := by
        simp [scanStep, hcr, hgood, e1]
      rw [hstep]
      exact ⟨Or.inl rfl, by intro h; simp at h⟩
    · have hct : 0 ≤ s.data_counter ∧ s.data_counter < 255 := by
        push_neg at hover
        exact ⟨hover.1, by omega⟩
      by_cases hfr : s.data_counter = s.data_len - 1
      · -- end of frame: reset, possibly firing Unpack_data
        have hstep : scanStep s b =
            ({ s with start_cond1 := false, start_cond2 := false, start_cond3 := false,
                      good_start := false, data_len := 0, data_counter := 0,
                      data_buffer := s.data_buffer.set s.data_counter.toNat (some b) },
             decide (pyBufGet (s.data_buffer.set s.data_counter.toNat (some b))
                 (s.data_len - 1) = some 2 ∧
               pyBufGet (s.data_buffer.set s.data_counter.toNat (some b))
                 (s.data_len - 2) = some 1)) := by
          have e1 : (s.data_counter < 0 ∨ 255 ≤ s.data_counter) = False := by
            simp only [eq_iff_iff, iff_false]; exact hover
          have e2 : (s.data_counter = s.data_len - 1) = True := by
            simp only [eq_iff_iff, iff_true]; exact hfr
          simp [scanStep, hcr, hgood, e1, e2]
        rw [hstep]
        dsimp only
        constructor
        · refine Or.inr ⟨by simpa using hlen, ?_, by intro h; simp at h⟩
          intro _
          exact ⟨rfl, rfl, by intro h; simp at h, by intro h; simp at h,
            by intro h; simp at h⟩
        · intro hfire
          obtain ⟨hf2, hf1⟩ := of_decide_eq_true hfire
          have hb2 : b = 2 := by
            rw [show s.data_len - 1 = s.data_counter by omega] at hf2
            rw [pyBufGet_set_self s.data_buffer s.data_counter b hct.1
              (by rw [hlen]; exact_mod_cast hct.2)] at hf2
            exact Option.some.inj hf2
          refine ⟨j, ?_, ?_, ?_, ?_, by omega, hl255, ?_, ?_, ?_⟩
          · rw [List.getElem?_append_left (by omega)]; exact hj1
          · rw [List.getElem?_append_left (by omega)]; exact hj2
          · rw [List.getElem?_append_left (by omega)]; exact hj3
          · rw [List.getElem?_append_left (by omega)]; exact hj4
          · simp only
            omega
          · simp only
            rw [append_singleton_get_last, hb2]
          · intro hL
            simp only
            have hc1 : 1 ≤ s.data_counter := by omega
            rw [show s.data_len - 2 = s.data_counter - 1 by omega] at hf1
            rw [pyBufGet_set_ne s.data_buffer (s.data_counter - 1) s.data_counter b
              (by omega) hct.1 (by omega)] at hf1
            rw [hslot hc1] at hf1
            rw [List.getElem?_append_left (by omega)]
            exact hf1
      · -- accumulate this byte and advance the counter
        have hstep : scanStep s b =
            ({ s with data_buffer := s.data_buffer.set s.data_counter.toNat (some b),
                      data_counter := s.data_counter + 1 }, false) := by
          have e1 : (s.data_counter < 0 ∨ 255 ≤ s.data_counter) = False := by
            simp only [eq_iff_iff, iff_false]; exact hover
          have e2 : (s.data_counter = s.data_len - 1) = False := by
            simp only [eq_iff_iff, iff_false]; exact hfr
          simp [scanStep, hcr, hgood, e1, e2]
        rw [hstep]
        dsimp only
        refine ⟨Or.inr ⟨by simpa using hlen, by intro h; simp [hgood] at h, ?_⟩,
          by intro h; simp at h⟩
        intro _
        refine ⟨hl0, hl255, show (0 : Int) ≤ s.data_counter + 1 by omega,
          show s.data_counter + 1 ≤ (255 : Int) by omega, j, ?_, ?_, ?_, ?_, ?_, ?_⟩
        · rw [List.getElem?_append_left (by omega)]; exact hj1
        · rw [List.getElem?_append_left (by omega)]; exact hj2
        · rw [List.getElem?_append_left (by omega)]; exact hj3
        · rw [List.getElem?_append_left (by omega)]; exact hj4
        · show (((p ++ [b]).length : Nat) : Int) = (j : Int) + 4 + (s.data_counter + 1)
          rw [hplen]; push_cast; omega
        · intro _
          show pyBufGet (s.data_buffer.set s.data_counter.toNat (some b))
              (s.data_counter + 1 - 1) = (p ++ [b])[(p ++ [b]).length - 1]?
          have h9 : s.data_counter + 1 - 1 = s.data_counter := by omega
          rw [h9, pyBufGet_set_self s.data_buffer s.data_counter b hct.1
            (by rw [hlen]; exact_mod_cast hct.2)]
          rw [hplen]
          have h9 : p.length + 1 - 1 = p.length := by omega
          rw [h9, append_singleton_get_last]

/-- Folding the scanner over a byte stream preserves the invariant and
every `Unpack_data` event it emits is a safe framing event for the full
stream. -/
lemma scanRunAux_safe (rest : List Int) : ∀ (p : List Int) (s : ScanState),
    (∀ x ∈ rest, 0 ≤ x ∧ x ≤ 255) → ScanInv p s →
    ∀ ev ∈ (scanRunAux s rest p.length).2, SafeEv (p ++ rest) ev := by
  induction rest with
  | nil =>
    intro p s _ _ ev hev
    simp [scanRunAux] at hev
  | cons b tl ih =>
    intro p s hb hinv ev hev
    have hstep := scanInv_step p s b (hb b (by simp)).1 (hb b (by simp)).2 hinv
    have hsplit : p ++ b :: tl = (p ++ [b]) ++ tl := by simp
    simp only [scanRunAux] at hev
    rcases List.mem_append.1 hev with h | h
    · rw [hsplit]
      split at h
      case isTrue hf =>
        have hev2 : ev = (p.length, s.data_len) := by simpa using h
        rw [hev2]
        exact SafeEv_append _ tl _ (hstep.2 hf)
      case isFalse hf =>
        simp at h
    · rw [show p.length + 1 = (p ++ [b]).length by simp] at h
      have := ih (p ++ [b]) (scanStep s b).1
        (fun x hx => hb x (by simp [hx])) hstep.1 ev h
      rw [hsplit]
      exact this

/-- C7 (amended): the inbound byte scanner invokes `Unpack_data` only
after three consecutive 0xff start bytes, a length byte L, and exactly
L further accumulated bytes, and only when buffer slots L-1 and L-2
hold 0x02 and 0x01 — for L ≥ 2 these are the final two accumulated
bytes of the current frame, while for L = 1 the second slot is stale
buffer content reached by Python negative indexing (see the
counterexample).  At the end of a frame — end-byte match or not — every
flag and counter resets to the scanning-for-start state, and a non-0xff
byte during start-byte search clears all start flags. -/
theorem C7_scanner_framing :
    (∀ bs : List Int, (∀ x ∈ bs, 0 ≤ x ∧ x ≤ 255) →
      ∀ ev ∈ scanEvents bs, SafeEv bs ev) ∧
    (∀ (s : ScanState) (b : Int), s.crashed = false → s.good_start = true →
      ¬(s.data_counter < 0 ∨ 255 ≤ s.data_counter) →
      s.data_counter = s.data_len - 1 →
      (scanStep s b).1.start_cond1 = false ∧ (scanStep s b).1.start_cond2 = false ∧
      (scanStep s b).1.start_cond3 = false ∧ (scanStep s b).1.good_start = false ∧
      (scanStep s b).1.data_len = 0 ∧ (scanStep s b).1.data_counter = 0) ∧
    (∀ (s : ScanState) (b : Int), s.crashed = false → s.good_start = false →
      b ≠ 255 →
      (s.start_cond2 = true → s.start_cond1 = true) →
      (s.start_cond3 = true → s.start_cond1 = true ∧ s.start_cond2 = true) →
      ¬(s.start_cond1 = true ∧ s.start_cond2 = true ∧ s.start_cond3 = true) →
      (scanStep s b).1.start_cond1 = false ∧ (scanStep s b).1.start_cond2 = false ∧
      (scanStep s b).1.start_cond3 = false ∧ (scanStep s b).1.good_start = false) := by
  refine ⟨?_, ?_, ?_⟩
  · intro bs hbs ev hev
    have h := scanRunAux_safe bs [] scanInit hbs scanInv_init ev (by simpa using hev)
    simpa using h
  · intro s b hcr hgood hover hfr
    have e1 : (s.data_counter < 0 ∨ 255 ≤ s.data_counter) = False := by
      simp only [eq_iff_iff, iff_false]; exact hover
    have e2 : (s.data_counter = s.data_len - 1) = True := by
      simp only [eq_iff_iff, iff_true]; exact hfr
    simp [scanStep, hcr, hgood, e1, e2]
  · intro s b hcr hgood hb h21 h31 hno3
    cases hsc3 : s.start_cond3 with
    | true =>
      obtain ⟨hc1, hc2⟩ := h31 hsc3
      exact absurd ⟨hc1, hc2, hsc3⟩ hno3
    | false =>
      cases hsc1 : s.start_cond1 with
      | false =>
        cases hsc2 : s.start_cond2 with
        | true => exact absurd (h21 hsc2) (by simp [hsc1])
        | false => simp [scanStep, hcr, hgood, hsc1, hsc2, hsc3, hb]
      | true =>
        cases hsc2 : s.start_cond2 with
        | false => simp [scanStep, hcr, hgood, hsc1, hsc2, hsc3, hb]
        | true => simp [scanStep, hcr, hgood, hsc1, hsc2, hsc3, hb]

/-- A well-formed inbound frame: start bytes, length 6, four payload
bytes, then the end bytes 0x01 0x02. -/
def c7GoodStream : List Int := [255, 255, 255, 6, 0, 0, 0, 0, 1, 2]

/-- Witness for C7: on a well-formed frame the scanner fires exactly at
position 9 with length 6, and that event satisfies the framing
property. -/
theorem C7_scanner_framing_witness : SafeEv c7GoodStream (9, 6) :=
  C7_scanner_framing.1 c7GoodStream (by decide) (9, 6) (by decide)

/-! ## Command state machines (src/commander/commands.py) -/

/-- ASCII lower-casing, modelling Python `str.lower()` on the ASCII
messages this system exchanges. -/
def asciiLower (c : Char) : Char :=
  if 'A' ≤ c ∧ c ≤ 'Z' then Char.ofNat (c.toNat + 32) else c

/-- ASCII upper-casing, modelling Python `str.upper()`. -/
def asciiUpper (c : Char) : Char :=
  if 'a' ≤ c ∧ c ≤ 'z' then Char.ofNat (c.toNat - 32) else c

/-- Rational stand-in for the float64 value of π/180 used by
`np.deg2rad`; the theorems below quantify over the (spec-modelled)
joint limits, so only the conversion being a fixed positive scaling
matters. -/
def deg2rad (a : ℚ) : ℚ := a * (3141592653589793 / (180 * 10 ^ 15))

/-- Modelled from the spec: the PAROL6 robot model
(`lib/kinematics/robot_model.py` is not under src/, only its callers
are).  Spec §4.3: MoveJoint construction validates "target joint angles
within static joint limits"; `Joint_limits_radian` is a per-joint
[min, max] list in radians. -/
structure RobotModel where
  jointLimitsRad : List (ℚ × ℚ)
deriving DecidableEq, Repr

/-- commands.py lines 103-131: `MoveJointCommand` construction state.
The trajectory produced later by `prepare_for_execution` comes from
numeric profile generators (`jtraj` / trapezoidal); the executor only
reads the per-cycle position setpoints, kept as `trajectory_steps`. -/
structure MoveJointCommand where
  is_valid : Bool
  is_finished : Bool
  command_step : Nat
  trajectory_steps : List (List Int)
  target_angles : List ℚ
  duration : Option ℚ
  velocity_percent : Option ℚ
  accel_percent : ℚ
deriving DecidableEq, Repr

/-- commands.py lines 108-131: `MoveJointCommand.__init__`.  `is_valid`
starts False, all parameters are stored, the six target angles are
converted to radians and compared against the static joint limits, and
only if all six pass is `is_valid` set True.  The duration and velocity
arguments are stored unexamined — there is no exclusivity check. -/
def MoveJointCommand.init (rm : RobotModel) (target_angles : List ℚ)
    (duration velocity_percent : Option ℚ) (accel_percent : ℚ) :
    MoveJointCommand :=
  { is_valid :=
      (List.range 6).all fun i =>
        decide ((rm.jointLimitsRad.getD i (0, 0)).1 ≤ deg2rad (target_angles.getD i 0) ∧
          deg2rad (target_angles.getD i 0) ≤ (rm.jointLimitsRad.getD i (0, 0)).2),
    is_finished := false, command_step := 0, trajectory_steps := [],
    target_angles := target_angles, duration := duration,
    velocity_percent := velocity_percent, accel_percent := accel_percent }

/-- commands.py lines 227-247: `MoveJointCommand.execute_step`.  The
third component is the `Position_out` write of the cycle (the source
also zeroes `Speed_out` and sets `Command_out` to 156 on both active
paths). -/
def MoveJointCommand.execute_step (c : MoveJointCommand) (Position_in : List Int) :
    MoveJointCommand × Bool × Option (List Int) :=
  if c.is_finished || !c.is_valid then (c, true, none)
  else if c.trajectory_steps.length ≤ c.command_step then
    ({ c with is_finished := true }, true, some Position_in)
  else
    ({ c with command_step := c.command_step + 1 }, false,
      some (c.trajectory_steps.getD c.command_step []))

/-- Returned Booleans of successive `MoveJointCommand.execute_step`
calls over a feedback sequence. -/
def mjReturns : MoveJointCommand → List (List Int) → List Bool
  | _, [] => []
  | c, fb :: rest =>
    let r := c.execute_step fb
    r.2.1 :: mjReturns r.1 rest

/-- commands.py lines 249-344: `ExecuteTrajectoryCommand` state. -/
structure ExecuteTrajectoryCommand where
  is_valid : Bool
  is_finished : Bool
  command_step : Nat
  trajectory_steps : List (List Int)
  trajectory_deg : List (List ℚ)
  duration : Option ℚ
deriving DecidableEq, Repr

/-- commands.py lines 261-311: `ExecuteTrajectoryCommand.__init__`:
valid iff the waypoint list is non-empty, every waypoint has six
joints, and every joint of every waypoint is within the static limits
(a duration/waypoint-count mismatch only logs a warning). -/
def ExecuteTrajectoryCommand.init (rm : RobotModel) (trajectory_deg : List (List ℚ))
    (duration : Option ℚ) : ExecuteTrajectoryCommand :=
  { is_valid :=
      (!trajectory_deg.isEmpty) &&
      (trajectory_deg.all fun w => w.length == 6) &&
      (trajectory_deg.all fun w =>
        (List.range 6).all fun j =>
          decide ((rm.jointLimitsRad.getD j (0, 0)).1 ≤ deg2rad (w.getD j 0) ∧
            deg2rad (w.getD j 0) ≤ (rm.jointLimitsRad.getD j (0, 0)).2)),
    is_finished := false, command_step := 0, trajectory_steps := [],
    trajectory_deg := trajectory_deg, duration := duration }

/-- commands.py lines 324-344: `ExecuteTrajectoryCommand.execute_step`,
identical playback loop to MoveJoint. -/
def ExecuteTrajectoryCommand.execute_step (c : ExecuteTrajectoryCommand)
    (Position_in : List Int) : ExecuteTrajectoryCommand × Bool × Option (List Int) :=
  if c.is_finished || !c.is_valid then (c, true, none)
  else if c.trajectory_steps.length ≤ c.command_step then
    ({ c with is_finished := true }, true, some Position_in)
  else
    ({ c with command_step := c.command_step + 1 }, false,
      some (c.trajectory_steps.getD c.command_step []))

/-- Returned Booleans of successive `ExecuteTrajectoryCommand`
steps. -/
def etReturns : ExecuteTrajectoryCommand → List (List Int) → List Bool
  | _, [] => []
  | c, fb :: rest =>
    let r := c.execute_step fb
    r.2.1 :: etReturns r.1 rest

/-- States of the homing state machine (commands.py line 48). -/
inductive HomeState where
  | START
  | WAITING_FOR_UNHOMED
  | WAITING_FOR_HOMED
deriving DecidableEq, Repr

/-- commands.py lines 40-54: `HomeCommand` state. -/
structure HomeCommand where
  is_valid : Bool
  is_finished : Bool
  state : HomeState
  start_cmd_counter : Int
  timeout_counter : Int
deriving DecidableEq, Repr

/-- commands.py lines 45-54: `HomeCommand.__init__`. -/
def HomeCommand.init : HomeCommand :=
  { is_valid := true, is_finished := false, state := .START,
    start_cmd_counter := 10, timeout_counter := 2000 }

/-- commands.py lines 56-100: `HomeCommand.execute_step`.  The third
component is the `Command_out` write (100 while sending the home
signal, 255 afterwards); the finished transition also zeroes
`Speed_out`.  Note the timeout counter is only decremented in the
WAITING_FOR_UNHOMED state. -/
def HomeCommand.execute_step (c : HomeCommand) (Homed_in : List Int) :
    HomeCommand × Bool × Option Int :=
  if c.is_finished then (c, true, none)
  else match c.state with
  | .START =>
    let c1 := { c with start_cmd_counter := c.start_cmd_counter - 1 }
    let c2 := if c1.start_cmd_counter ≤ 0 then
                { c1 with state := .WAITING_FOR_UNHOMED } else c1
    (c2, false, some 100)
  | .WAITING_FOR_UNHOMED =>
    let c1 := if (Homed_in.take 6).any (fun h => h == 0) then
                { c with state := .WAITING_FOR_HOMED } else c
    let c2 := { c1 with timeout_counter := c1.timeout_counter - 1 }
    let c3 := if c2.timeout_counter ≤ 0 then { c2 with is_finished := true } else c2
    (c3, c3.is_finished, some 255)
  | .WAITING_FOR_HOMED =>
    let c1 := if (Homed_in.take 6).all (fun h => h == 1) then
                { c with is_finished := true } else c
    (c1, c1.is_finished, some 255)

/-- Fold `HomeCommand.execute_step` over a feedback sequence. -/
def homeRun : HomeCommand → List (List Int) → HomeCommand
  | c, [] => c
  | c, fb :: rest => homeRun (c.execute_step fb).1 rest

/-- States of the gripper state machine (commands.py lines 380-413). -/
inductive GripperState where
  | START
  | SEND_CALIBRATE
  | WAITING_CALIBRATION
  | WAIT_FOR_POSITION
deriving DecidableEq, Repr

/-- commands.py lines 367-396: `GripperCommand` state. -/
structure GripperCommand where
  is_valid : Bool
  is_finished : Bool
  action : List Char
  state : GripperState
  timeout_counter : Int
  wait_counter : Int
  target_position : Int
  speed : Int
  current : Int
deriving DecidableEq, Repr

/-- commands.py lines 372-396: `GripperCommand.__init__`.  Python
`action.lower() if action else 'move'` treats both `None` and the
empty string as `'move'`.  A `move` action validates the position,
speed and current ranges; `calibrate` arms a 200-cycle wait; any other
action marks the command invalid.  Every command starts with a
1000-cycle (10 s) timeout. -/
def GripperCommand.init (action : Option (List Char))
    (position speed current : Int) : GripperCommand :=
  let act := match action with
    | none => ['m', 'o', 'v', 'e']
    | some a => if a = [] then ['m', 'o', 'v', 'e'] else a.map asciiLower
  let base : GripperCommand :=
    { is_valid := true, is_finished := false, action := act, state := .START,
      timeout_counter := 1000, wait_counter := 0,
      target_position := 0, speed := 0, current := 0 }
  if act = ['m', 'o', 'v', 'e'] then
    { base with
      target_position := position
      speed := speed
      current := current
      is_valid := decide (0 ≤ position ∧ position ≤ 255 ∧ 0 ≤ speed ∧
        speed ≤ 255 ∧ 100 ≤ current ∧ current ≤ 1000) }
  else if act = ['c', 'a', 'l', 'i', 'b', 'r', 'a', 't', 'e'] then
    { base with wait_counter := 200 }
  else
    { base with is_valid := false }

/-- commands.py lines 398-452: `GripperCommand.execute_step`.  Inputs
are the gripper feedback array, the digital-input array and the shared
`Gripper_data_out` array; the third component is that array after the
call.  The timeout counter is decremented on every call of a valid,
unfinished command and forces `is_finished` at zero. -/
def GripperCommand.execute_step (c : GripperCommand)
    (Gripper_data_in InOut_in gOut : List Int) :
    GripperCommand × Bool × List Int :=
  if c.is_finished || !c.is_valid then (c, true, gOut)
  else
    let c1 := { c with timeout_counter := c.timeout_counter - 1 }
    if c1.timeout_counter ≤ 0 then ({ c1 with is_finished := true }, true, gOut)
    else
      let c2 := if c1.state = .START then
                  if c1.action = ['c', 'a', 'l', 'i', 'b', 'r', 'a', 't', 'e'] then
                    { c1 with state := .SEND_CALIBRATE }
                  else { c1 with state := .WAIT_FOR_POSITION }
                else c1
      if c2.state = .SEND_CALIBRATE then
        ({ c2 with state := .WAITING_CALIBRATION }, false, gOut.set 4 1)
      else if c2.state = .WAITING_CALIBRATION then
        let c3 := { c2 with wait_counter := c2.wait_counter - 1 }
        if c3.wait_counter ≤ 0 then ({ c3 with is_finished := true }, true, gOut.set 4 0)
        else (c3, false, gOut)
      else if c2.state = .WAIT_FOR_POSITION then
        let estopBit : Int := if InOut_in.getD 4 0 = 0 then 1 else 0
        let g1 := (((gOut.set 0 c2.target_position).set 1 c2.speed).set 2 c2.current).set 4 0
        let g2 := g1.set 3 (Fuse_bitfield_2_bytearray [1, 1, estopBit, 1, 0, 0, 0, 0])
        if |Gripper_data_in.getD 1 0 - c2.target_position| ≤ 5 then
          ({ c2 with is_finished := true }, true,
            g2.set 3 (Fuse_bitfield_2_bytearray [1, 0, estopBit, 1, 0, 0, 0, 0]))
        else (c2, false, g2)
      else (c2, c2.is_finished, gOut)

/-- Returned Booleans of successive `GripperCommand.execute_step` calls
over a sequence of `(Gripper_data_in, InOut_in, Gripper_data_out)`
inputs. -/
def gripperReturns : GripperCommand → List (List Int × List Int × List Int) → List Bool
  | _, [] => []
  | c, (gin, ioin, gout) :: rest =>
    let r := c.execute_step gin ioin gout
    r.2.1 :: gripperReturns r.1 rest

/-- C4 counterexample: a MoveJointCommand constructed with *both* a
duration (2 s) and a velocity percentage (50) has `is_valid = true` —
construction checks only the joint limits (here the spec-modelled
limits ±4 rad with all-zero targets), so the claim that such a command
has `is_valid == False` at construction is false on the code. -/
theorem C4_counterexample :
    (MoveJointCommand.init ⟨[(-4, 4), (-4, 4), (-4, 4), (-4, 4), (-4, 4), (-4, 4)]⟩
      [0, 0, 0, 0, 0, 0] (some 2) (some 50) 50).is_valid = true := by
  simp only [MoveJointCommand.init]
  rw [List.all_eq_true]
  intro i hi
  rw [List.mem_range] at hi
  interval_cases i <;>
    · rw [decide_eq_true_eq]
      norm_num [deg2rad]

/-- C4 (amended): MoveJointCommand construction does not enforce
duration/speed exclusivity.  `is_valid` at construction is the same
Boolean for every combination of duration, velocity and acceleration
arguments, and it is true exactly when all six target angles convert to
radians inside the per-joint static limits (at prepare time a command
with both arguments uses the duration; one with neither gets a default
200-step profile). -/
theorem C4_movejoint_validation (rm : RobotModel) (angles : List ℚ)
    (d v d2 v2 : Option ℚ) (a a2 : ℚ) :
    (MoveJointCommand.init rm angles d v a).is_valid =
      (MoveJointCommand.init rm angles d2 v2 a2).is_valid ∧
    ((MoveJointCommand.init rm angles d v a).is_valid = true ↔
      ∀ i : Nat, i < 6 →
        (rm.jointLimitsRad.getD i (0, 0)).1 ≤ deg2rad (angles.getD i 0) ∧
        deg2rad (angles.getD i 0) ≤ (rm.jointLimitsRad.getD i (0, 0)).2) := by
  refine ⟨rfl, ?_⟩
  simp [MoveJointCommand.init, List.all_eq_true, List.mem_range]

/-- Witness for C4 at concrete limits and angles: the validation
outcome is independent of the duration/velocity arguments. -/
theorem C4_movejoint_validation_witness :
    (MoveJointCommand.init ⟨List.replicate 6 (-4, 4)⟩ (List.replicate 6 0)
      (some 2) (some 50) 50).is_valid =
    (MoveJointCommand.init ⟨List.replicate 6 (-4, 4)⟩ (List.replicate 6 0)
      none none 50).is_valid :=
  (C4_movejoint_validation ⟨List.replicate 6 (-4, 4)⟩ (List.replicate 6 0)
    (some 2) (some 50) none none 50 50).1

/-! ### C5: timeout behaviour of the command family -/

/-- `HomeCommand.execute_step` restricted to feedback in which no joint
reports unhomed (every entry of `Homed_in[:6]` nonzero): the feedback
argument no longer matters as long as the machine is not in
WAITING_FOR_HOMED. -/
def homeStepQuiet (c : HomeCommand) : HomeCommand :=
  if c.is_finished then c
  else match c.state with
  | .START =>
    let c1 := { c with start_cmd_counter := c.start_cmd_counter - 1 }
    if c1.start_cmd_counter ≤ 0 then { c1 with state := .WAITING_FOR_UNHOMED } else c1
  | .WAITING_FOR_UNHOMED =>
    let c2 := { c with timeout_counter := c.timeout_counter - 1 }
    if c2.timeout_counter ≤ 0 then { c2 with is_finished := true } else c2
  | .WAITING_FOR_HOMED => c

/-- Under quiet feedback, a home step outside WAITING_FOR_HOMED equals
the feedback-free step. -/
lemma home_step_quiet (c : HomeCommand) (fb : List Int)
    (hfb : ∀ h ∈ fb.take 6, ¬h = 0) (hst : c.state ≠ .WAITING_FOR_HOMED) :
    (c.execute_step fb).1 = homeStepQuiet c := by
  have hany : (fb.take 6).any (fun h => h == 0) = false := by
    cases hq : (fb.take 6).any (fun h => h == 0) with
    | false => rfl
    | true =>
      obtain ⟨x, hx, hpx⟩ := List.any_eq_true.1 hq
      exact absurd (by simpa using hpx) (hfb x hx)
  cases hfin : c.is_finished with
  | true => simp [HomeCommand.execute_step, homeStepQuiet, hfin]
  | false =>
    cases hstate : c.state with
    | START => simp [HomeCommand.execute_step, homeStepQuiet, hfin, hstate]
    | WAITING_FOR_UNHOMED =>
      simp [HomeCommand.execute_step, homeStepQuiet, hfin, hstate, hany]
    | WAITING_FOR_HOMED => exact absurd hstate hst

/-- The feedback-free home step never enters WAITING_FOR_HOMED. -/
lemma home_quiet_state (c : HomeCommand) (h : c.state ≠ .WAITING_FOR_HOMED) :
    (homeStepQuiet c).state ≠ .WAITING_FOR_HOMED := by
  cases hfin : c.is_finished with
  | true => simpa [homeStepQuiet, hfin] using h
  | false =>
    cases hstate : c.state with
    | START =>
      simp only [homeStepQuiet, hfin, hstate, Bool.false_eq_true, if_false]
      split <;> simp
    | WAITING_FOR_UNHOMED =>
      simp only [homeStepQuiet, hfin, hstate, Bool.false_eq_true, if_false]
      split <;> simp
    | WAITING_FOR_HOMED => exact absurd hstate h

/-- Under quiet feedback the home run is the iterate of the
feedback-free step. -/
lemma home_run_quiet (fbs : List (List Int)) : ∀ c : HomeCommand,
    (∀ fb ∈ fbs, ∀ h ∈ fb.take 6, ¬h = 0) → c.state ≠ .WAITING_FOR_HOMED →
    homeRun c fbs = homeStepQuiet^[fbs.length] c := by
  induction fbs with
  | nil => intro c _ _; rfl
  | cons fb tl ih =>
    intro c hq hst
    have h1 : homeRun c (fb :: tl) = homeRun (c.execute_step fb).1 tl := rfl
    rw [h1, home_step_quiet c fb (hq fb (by simp)) hst,
      ih (homeStepQuiet c) (fun f hf => hq f (by simp [hf])) (home_quiet_state c hst),
      List.length_cons, Function.iterate_succ_apply]

/-- A finished command is a fixed point of the feedback-free step. -/
lemma home_quiet_fix (k : Nat) : ∀ c : HomeCommand, c.is_finished = true →
    (homeStepQuiet^[k] c).is_finished = true := by
  induction k with
  | zero => intro c h; simpa using h
  | succ n ih =>
    intro c h
    rw [Function.iterate_succ_apply]
    exact ih _ (by simp [homeStepQuiet, h])

/-- A finished or invalid gripper command returns True and is left
untouched. -/
lemma gripper_early (c : GripperCommand)
    (h : c.is_finished = true ∨ c.is_valid = false) :
    ∀ gin ioin gout, c.execute_step gin ioin gout = (c, true, gout) := by
  intro gin ioin gout
  unfold GripperCommand.execute_step
  rcases h with h | h <;> simp [h]

/-- A finished or invalid gripper command keeps answering True. -/
lemma gripper_returns_early (inputs : List (List Int × List Int × List Int)) :
    ∀ c : GripperCommand, (c.is_finished = true ∨ c.is_valid = false) →
    ∀ k : Nat, k < inputs.length → (gripperReturns c inputs)[k]? = some true := by
  induction inputs with
  | nil => intro c _ k hk; simp at hk
  | cons i tl ih =>
    intro c hc k hk
    obtain ⟨gin, ioin, gout⟩ := i
    simp only [gripperReturns]
    rw [gripper_early c hc]
    cases k with
    | zero => simp
    | succ m =>
      simp only [List.getElem?_cons_succ]
      exact ih c hc m (by simpa using hk)

/-- Shape of one gripper step on a valid, unfinished command: either it
returns True having finished (or invalidated) the command, or it
returns False with the timeout counter decremented — the False case is
only possible when at least two timeout cycles were left. -/
lemma gripper_step_shape (c : GripperCommand)
    (gin ioin gout : List Int)
    (hfin : c.is_finished = false) (hval : c.is_valid = true) :
    ((c.execute_step gin ioin gout).2.1 = true ∧
      ((c.execute_step gin ioin gout).1.is_finished = true ∨
       (c.execute_step gin ioin gout).1.is_valid = false)) ∨
    ((c.execute_step gin ioin gout).2.1 = false ∧
      (c.execute_step gin ioin gout).1.is_finished = false ∧
      (c.execute_step gin ioin gout).1.is_valid = true ∧
      (c.execute_step gin ioin gout).1.timeout_counter = c.timeout_counter - 1 ∧
      2 ≤ c.timeout_counter) := by
  unfold GripperCommand.execute_step
  simp only [hfin, hval, Bool.not_true, Bool.or_false, Bool.false_or, if_neg,
    Bool.false_eq_true, not_false_eq_true]
  split_ifs with h1 h2 h3 h4 h5 h6 <;>
    simp_all <;> omega

/-- Any gripper command answers True by the time its timeout counter
can have reached zero. -/
lemma gripper_bound (inputs : List (List Int × List Int × List Int)) :
    ∀ (k : Nat) (c : GripperCommand), k < inputs.length →
    c.timeout_counter ≤ (k : Int) + 1 →
    (gripperReturns c inputs)[k]? = some true := by
  induction inputs with
  | nil => intro k c hk _; simp at hk
  | cons i tl ih =>
    intro k c hk htc
    obtain ⟨gin, ioin, gout⟩ := i
    by_cases hearly : c.is_finished = true ∨ c.is_valid = false
    · exact gripper_returns_early _ c hearly k hk
    · push_neg at hearly
      have hfin : c.is_finished = false := by
        simpa using hearly.1
      have hval : c.is_valid = true := by
        simpa using hearly.2
      rcases gripper_step_shape c gin ioin gout hfin hval with
        ⟨hret, hdone⟩ | ⟨hret, hfin2, hval2, htc2, htc3⟩
      · cases k with
        | zero => simp [gripperReturns, hret]
        | succ m =>
          simp only [gripperReturns, List.getElem?_cons_succ]
          exact gripper_returns_early tl _ hdone m (by simpa using hk)
      · cases k with
        | zero => omega
        | succ m =>
          simp only [gripperReturns, List.getElem?_cons_succ]
          exact ih m _ (by simpa using hk) (by push_cast at htc ⊢; omega)

/-- A finished or invalid MoveJoint command keeps answering True. -/
lemma mj_returns_early (inputs : List (List Int)) :
    ∀ c : MoveJointCommand, (c.is_finished = true ∨ c.is_valid = false) →
    ∀ k : Nat, k < inputs.length → (mjReturns c inputs)[k]? = some true := by
  induction inputs with
  | nil => intro c _ k hk; simp at hk
  | cons fb tl ih =>
    intro c hc k hk
    have hstep : c.execute_step fb = (c, true, none) := by
      unfold MoveJointCommand.execute_step
      rcases hc with h | h <;> simp [h]
    simp only [mjReturns]
    rw [hstep]
    cases k with
    | zero => simp
    | succ m =>
      simp only [List.getElem?_cons_succ]
      exact ih c hc m (by simpa using hk)

/-- MoveJoint playback answers True as soon as the step cursor can have
passed the end of the prepared trajectory. -/
lemma mj_bound (inputs : List (List Int)) :
    ∀ (k : Nat) (c : MoveJointCommand), k < inputs.length →
    c.trajectory_steps.length ≤ c.command_step + k →
    (mjReturns c inputs)[k]? = some true := by
  induction inputs with
  | nil => intro k c hk _; simp at hk
  | cons fb tl ih =>
    intro k c hk hlen
    by_cases hearly : c.is_finished = true ∨ c.is_valid = false
    · exact mj_returns_early _ c hearly k hk
    · push_neg at hearly
      have hfin : c.is_finished = false := by simpa using hearly.1
      have hval : c.is_valid = true := by simpa using hearly.2
      by_cases hend : c.trajectory_steps.length ≤ c.command_step
      · have hstep : c.execute_step fb =
            ({ c with is_finished := true }, true, some fb) := by
          unfold MoveJointCommand.execute_step
          simp [hfin, hval, hend]
        simp only [mjReturns]
        rw [hstep]
        cases k with
        | zero => simp
        | succ m =>
          simp only [List.getElem?_cons_succ]
          exact mj_returns_early tl _ (Or.inl rfl) m (by simpa using hk)
      · have hstep : c.execute_step fb =
            ({ c with command_step := c.command_step + 1 }, false,
              some (c.trajectory_steps.getD c.command_step [])) := by
          unfold MoveJointCommand.execute_step
          simp [hfin, hval, hend]
        simp only [mjReturns]
        rw [hstep]
        cases k with
        | zero => omega
        | succ m =>
          simp only [List.getElem?_cons_succ]
          exact ih m _ (by simpa using hk) (by simp; omega)

/-- A finished or invalid ExecuteTrajectory command keeps answering
True. -/
lemma et_returns_early (inputs : List (List Int)) :
    ∀ c : ExecuteTrajectoryCommand, (c.is_finished = true ∨ c.is_valid = false) →
    ∀ k : Nat, k < inputs.length → (etReturns c inputs)[k]? = some true := by
  induction inputs with
  | nil => intro c _ k hk; simp at hk
  | cons fb tl ih =>
    intro c hc k hk
    have hstep : c.execute_step fb = (c, true, none) := by
      unfold ExecuteTrajectoryCommand.execute_step
      rcases hc with h | h <;> simp [h]
    simp only [etReturns]
    rw [hstep]
    cases k with
    | zero => simp
    | succ m =>
      simp only [List.getElem?_cons_succ]
      exact ih c hc m (by simpa using hk)

/-- Trajectory playback answers True as soon as the step cursor can
have passed the end of the prepared trajectory. -/
lemma et_bound (inputs : List (List Int)) :
    ∀ (k : Nat) (c : ExecuteTrajectoryCommand), k < inputs.length →
    c.trajectory_steps.length ≤ c.command_step + k →
    (etReturns c inputs)[k]? = some true := by
  induction inputs with
  | nil => intro k c hk _; simp at hk
  | cons fb tl ih =>
    intro k c hk hlen
    by_cases hearly : c.is_finished = true ∨ c.is_valid = false
    · exact et_returns_early _ c hearly k hk
    · push_neg at hearly
      have hfin : c.is_finished = false := by simpa using hearly.1
      have hval : c.is_valid = true := by simpa using hearly.2
      by_cases hend : c.trajectory_steps.length ≤ c.command_step
      · have hstep : c.execute_step fb =
            ({ c with is_finished := true }, true, some fb) := by
          unfold ExecuteTrajectoryCommand.execute_step
          simp [hfin, hval, hend]
        simp only [etReturns]
        rw [hstep]
        cases k with
        | zero => simp
        | succ m =>
          simp only [List.getElem?_cons_succ]
          exact et_returns_early tl _ (Or.inl rfl) m (by simpa using hk)
      · have hstep : c.execute_step fb =
            ({ c with command_step := c.command_step + 1 }, false,
              some (c.trajectory_steps.getD c.command_step [])) := by
          unfold ExecuteTrajectoryCommand.execute_step
          simp [hfin, hval, hend]
        simp only [etReturns]
        rw [hstep]
        cases k with
        | zero => omega
        | succ m =>
          simp only [List.getElem?_cons_succ]
          exact ih m _ (by simpa using hk) (by simp; omega)

/-- Running a home command over concatenated feedback lists composes. -/
lemma homeRun_append (l1 l2 : List (List Int)) : ∀ c : HomeCommand,
    homeRun c (l1 ++ l2) = homeRun (homeRun c l1) l2 := by
  induction l1 with
  | nil => intro c; rfl
  | cons fb tl ih => intro c; exact ih (c.execute_step fb).1

/-- In WAITING_FOR_HOMED, feedback that does not report all six joints
homed leaves the command exactly as it was: no counter runs there. -/
lemma home_stuck_fix (c : HomeCommand) (fb : List Int)
    (hfin : c.is_finished = false) (hst : c.state = .WAITING_FOR_HOMED)
    (hall : (fb.take 6).all (fun h => h == 1) = false) :
    (c.execute_step fb).1 = c := by
  simp [HomeCommand.execute_step, hfin, hst, hall]

/-- Hence such a command survives any number of such feedback cycles. -/
lemma home_stuck_run (n : Nat) (c : HomeCommand) (fb : List Int)
    (hfin : c.is_finished = false) (hst : c.state = .WAITING_FOR_HOMED)
    (hall : (fb.take 6).all (fun h => h == 1) = false) :
    homeRun c (List.replicate n fb) = c := by
  induction n with
  | zero => rfl
  | succ m ih =>
    have h1 : homeRun c (List.replicate (m + 1) fb) =
        homeRun (c.execute_step fb).1 (List.replicate m fb) := rfl
    rw [h1, home_stuck_fix c fb hfin hst hall, ih]

/-- From WAITING_FOR_UNHOMED with quiet feedback, the timeout counter
forces `is_finished` within `timeout_counter` further steps. -/
lemma home_quiet_wfu (n : Nat) : ∀ c : HomeCommand, c.is_finished = false →
    c.state = .WAITING_FOR_UNHOMED → 1 ≤ c.timeout_counter → c.timeout_counter ≤ n →
    (homeStepQuiet^[n] c).is_finished = true := by
  induction n with
  | zero => intro c _ _ h1 h2; omega
  | succ m ih =>
    intro c hfin hst h1 h2
    rw [Function.iterate_succ_apply]
    by_cases hz : c.timeout_counter - 1 ≤ 0
    · have hq : homeStepQuiet c =
          { c with timeout_counter := c.timeout_counter - 1, is_finished := true } := by
        simp [homeStepQuiet, hfin, hst, hz]
      rw [hq]
      exact home_quiet_fix m _ rfl
    · have hq : homeStepQuiet c =
          { c with timeout_counter := c.timeout_counter - 1 } := by
        simp [homeStepQuiet, hfin, hst, hz]
      rw [hq]
      exact ih _ hfin hst (show (1 : Int) ≤ c.timeout_counter - 1 by omega)
        (show c.timeout_counter - 1 ≤ (m : Int) by push_cast at h2 ⊢; omega)

/-- C5 counterexample: with feedback in which joint 1 reports unhomed
and never re-asserts homed, `HomeCommand` is still unfinished after
3000 execute_step calls — once the machine reaches WAITING_FOR_HOMED
no timeout applies, so "is_finished == True within about 2000 calls
for any feedback" is false on the code. -/
theorem C5_counterexample :
    (homeRun HomeCommand.init
      (List.replicate 3000 [0, 1, 1, 1, 1, 1, 0, 0])).is_finished = false := by
  have hsplit : List.replicate 3000 ([0, 1, 1, 1, 1, 1, 0, 0] : List Int) =
      List.replicate 11 [0, 1, 1, 1, 1, 1, 0, 0] ++
      List.replicate 2989 [0, 1, 1, 1, 1, 1, 0, 0] := by
    rw [← List.replicate_add]
  rw [hsplit, homeRun_append]
  have h11 : homeRun HomeCommand.init
      (List.replicate 11 [0, 1, 1, 1, 1, 1, 0, 0]) =
      ⟨true, false, .WAITING_FOR_HOMED, 0, 1999⟩ := by decide
  rw [h11, home_stuck_run 2989 _ _ rfl rfl (by decide)]

/-- C5 (amended): the timeouts that do hold.  HomeCommand finishes
within 2010 calls whenever no joint ever reports unhomed (the 20 s
timeout covers only the waiting-to-start phase); GripperCommand's
execute_step returns True from call 1000 on for any inputs (10 s
timeout, decremented every call); MoveJoint and ExecuteTrajectory
playback return True within trajectory-length + 1 calls. -/
theorem C5_command_timeouts :
    (∀ fbs : List (List Int),
      (∀ fb ∈ fbs, ∀ h ∈ fb.take 6, ¬h = 0) → 2010 ≤ fbs.length →
      (homeRun HomeCommand.init fbs).is_finished = true) ∧
    (∀ (action : Option (List Char)) (pos spd cur : Int)
      (inputs : List (List Int × List Int × List Int)) (k : Nat),
      999 ≤ k → k < inputs.length →
      (gripperReturns (GripperCommand.init action pos spd cur) inputs)[k]? =
        some true) ∧
    (∀ (c : MoveJointCommand) (inputs : List (List Int)) (k : Nat),
      k < inputs.length → c.trajectory_steps.length ≤ c.command_step + k →
      (mjReturns c inputs)[k]? = some true) ∧
    (∀ (c : ExecuteTrajectoryCommand) (inputs : List (List Int)) (k : Nat),
      k < inputs.length → c.trajectory_steps.length ≤ c.command_step + k →
      (etReturns c inputs)[k]? = some true) := by
  refine ⟨?_, ?_, fun c inputs k hk hl => mj_bound inputs k c hk hl,
    fun c inputs k hk hl => et_bound inputs k c hk hl⟩
  · intro fbs hq hlen
    rw [home_run_quiet fbs HomeCommand.init hq (by simp [HomeCommand.init])]
    have hsplit : fbs.length = (fbs.length - 2010) + 2010 := by omega
    rw [hsplit, Function.iterate_add_apply]
    refine home_quiet_fix _ _ ?_
    have h2010 : (2010 : Nat) = 2000 + 10 := by norm_num
    rw [h2010, Function.iterate_add_apply]
    have h10 : homeStepQuiet^[10] HomeCommand.init =
        ⟨true, false, .WAITING_FOR_UNHOMED, 0, 2000⟩ := by decide
    rw [h10]
    exact home_quiet_wfu 2000 _ rfl rfl (by norm_num) (by norm_num)
  · intro action pos spd cur inputs k hk hklen
    refine gripper_bound inputs k _ hklen ?_
    have htc : (GripperCommand.init action pos spd cur).timeout_counter = 1000 := by
      unfold GripperCommand.init
      dsimp only
      split_ifs <;> rfl
    rw [htc]
    omega

/-- Witness for C5 at concrete runs: 2010 quiet cycles finish homing;
call 1000 of a gripper move returns True; a 2-step trajectory answers
True at call 3. -/
theorem C5_command_timeouts_witness :
    (homeRun HomeCommand.init
      (List.replicate 2010 [1, 1, 1, 1, 1, 1, 1, 1])).is_finished = true ∧
    (gripperReturns (GripperCommand.init none 100 100 500)
      (List.replicate 1000 ([1, 1, 1, 1, 1, 1], [1, 1, 1, 1, 1, 1, 1, 1],
        [1, 1, 1, 1, 0, 0])))[999]? = some true ∧
    (mjReturns ⟨true, false, 0, [[1], [2]], [], none, none, 50⟩
      (List.replicate 3 []))[2]? = some true ∧
    (etReturns ⟨true, false, 0, [[1], [2]], [], none⟩
      (List.replicate 3 []))[2]? = some true := by
  refine ⟨?_, ?_, ?_, ?_⟩
  · refine C5_command_timeouts.1 _ ?_ (by simp)
    intro fb hfb
    rw [List.eq_of_mem_replicate hfb]
    decide
  · exact C5_command_timeouts.2.1 none 100 100 500 _ 999 (by norm_num) (by simp)
  · exact C5_command_timeouts.2.2.1 _ _ 2 (by decide) (by decide)
  · exact C5_command_timeouts.2.2.2 _ _ 2 (by decide) (by decide)

/-! ## Command parser (src/commander/command_parser.py) -/

/-- commands.py lines 346-356: `SetIOCommand.__init__`. -/
structure SetIOCommand where
  output : Int
  state : Bool
  index : Nat
  is_finished : Bool
  is_valid : Bool
deriving DecidableEq, Repr

/-- commands.py lines 348-356: output 1 maps to digital-out index 2,
anything else to index 3; only outputs 1 and 2 are valid. -/
def SetIOCommand.init (output : Int) (state : Bool) : SetIOCommand :=
  { output := output, state := state,
    index := if output = 1 then 2 else 3,
    is_finished := false,
    is_valid := decide (output = 1 ∨ output = 2) }

/-- commands.py lines 454-479: `DelayCommand` state.  An invalid
command (non-positive duration) returns before storing the duration;
the field is 0 in that case. -/
structure DelayCommand where
  is_valid : Bool
  is_finished : Bool
  duration : ℚ
deriving DecidableEq, Repr

/-- commands.py lines 460-479: `DelayCommand.__init__` (the
`isinstance` check always passes for a parsed float). -/
def DelayCommand.init (duration : ℚ) : DelayCommand :=
  if duration ≤ 0 then { is_valid := false, is_finished := false, duration := 0 }
  else { is_valid := true, is_finished := false, duration := duration }

/-- Python `message.split(sep)`: never empty, `''.split` gives `['']`. -/
def pySplit (sep : Char) : List Char → List (List Char)
  | [] => [[]]
  | c :: rest =>
    if c = sep then [] :: pySplit sep rest
    else match pySplit sep rest with
      | [] => [[c]]
      | h :: t => (c :: h) :: t

/-- A value produced by Python `json.loads`, to the depth the parser
inspects: numbers (with JSON booleans as their numeric values, matching
numpy), arrays, and anything else. -/
inductive PyJson where
  | num (q : ℚ)
  | bool (b : Bool)
  | arr (l : List PyJson)
  | other

/-- The command object a successful parse returns. -/
inductive ParsedCommand where
  | home (c : HomeCommand)
  | moveJoint (c : MoveJointCommand)
  | executeTrajectory (c : ExecuteTrajectoryCommand)
  | setOutput (c : SetIOCommand)
  | gripper (c : GripperCommand)
  | delay (c : DelayCommand)
deriving DecidableEq, Repr

/-- The `(command_object, error_message)` pair every parser method
returns. -/
abbrev ParseOut := Option ParsedCommand × Option (List Char)

/-- Successful parse: `(cmd_obj, None)`. -/
def okOut (c : ParsedCommand) : ParseOut := (some c, none)

/-- Failed parse: `(None, "error description")`. -/
def errOut (e : List Char) : ParseOut := (none, some e)

/-- The shape contract of the parser: exactly one side of the pair is
populated. -/
def WellShaped (r : ParseOut) : Prop :=
  (∃ c, r = okOut c) ∨ (∃ e, r = errOut e)

/-- Parse a list of strings as floats, failing if any fails
(`[float(p) for p in ...]` raising `ValueError`). -/
def pfAll (pf : List Char → Option ℚ) : List (List Char) → Option (List ℚ)
  | [] => some []
  | x :: xs =>
    match pf x, pfAll pf xs with
    | some v, some vs => some (v :: vs)
    | _, _ => none

/-- `None if parts[i].upper() == 'NONE' else float(parts[i])`: the
outer `none` is a float conversion failure, `some none` is the NONE
keyword, `some (some q)` a parsed number. -/
def pfOptional (pf : List Char → Option ℚ) (p : List Char) : Option (Option ℚ) :=
  if p.map asciiUpper = "NONE".toList then some none else (pf p).map some

/-- Numeric coercion `np.deg2rad` applies to a JSON leaf: numbers and
booleans work, anything else raises (caught by the parser's generic
handler). -/
def jsonNum : PyJson → Option ℚ
  | .num q => some q
  | .bool b => some (if b then 1 else 0)
  | _ => none

/-- Elementwise numeric coercion of one waypoint. -/
def jsonNums : List PyJson → Option (List ℚ)
  | [] => some []
  | x :: xs =>
    match jsonNum x, jsonNums xs with
    | some v, some vs => some (v :: vs)
    | _, _ => none

/-- Numeric coercion of the whole trajectory. -/
def jsonTraj : List PyJson → Option (List (List ℚ))
  | [] => some []
  | .arr w :: xs =>
    match jsonNums w, jsonTraj xs with
    | some v, some vs => some (v :: vs)
    | _, _ => none
  | _ :: _ => none

/-- command_parser.py lines 118-142: `_parse_move_joint`.  Exact
9-field check first; then the six angles, the optional duration and the
optional speed; numeric failure messages are abstracted to a constant
prefix (Python embeds the exception text). -/
def parseMoveJoint (rm : RobotModel) (pf : List Char → Option ℚ)
    (parts : List (List Char)) : ParseOut :=
  if parts.length ≠ 9 then
    errOut ("MOVEJOINT expects 9 parts, got ".toList ++ (toString parts.length).toList)
  else
    match pfAll pf ((parts.drop 1).take 6) with
    | none => errOut "MOVEJOINT parameter error".toList
    | some joint_vals =>
      match pfOptional pf (parts.getD 7 []) with
      | none => errOut "MOVEJOINT parameter error".toList
      | some dur =>
        match pfOptional pf (parts.getD 8 []) with
        | none => errOut "MOVEJOINT parameter error".toList
        | some spd =>
          okOut (.moveJoint (MoveJointCommand.init rm joint_vals dur spd 50))

/-- command_parser.py lines 196-234: `_parse_execute_trajectory`.
Exact 3-field check, JSON decode, list/shape validation, optional
duration, then construction (whose numeric coercion of waypoint
entries can itself fail, caught by the generic handler). -/
def parseExecuteTrajectory (rm : RobotModel) (pf : List Char → Option ℚ)
    (pjson : List Char → Option PyJson) (parts : List (List Char)) : ParseOut :=
  if parts.length ≠ 3 then
    errOut ("EXECUTETRAJECTORY expects 3 parts, got ".toList ++
      (toString parts.length).toList)
  else
    match pjson (parts.getD 1 []) with
    | none => errOut "EXECUTETRAJECTORY invalid JSON".toList
    | some j =>
      match j with
      | .arr l =>
        if l.isEmpty then
          errOut "EXECUTETRAJECTORY trajectory must be non-empty list".toList
        else if l.any (fun w => match w with | .arr ww => ww.length ≠ 6 | _ => true) then
          errOut "EXECUTETRAJECTORY waypoint must have 6 joints".toList
        else
          match pfOptional pf (parts.getD 2 []) with
          | none => errOut "EXECUTETRAJECTORY parameter error".toList
          | some dur =>
            match jsonTraj l with
            | none => errOut "EXECUTETRAJECTORY parse error".toList
            | some traj => okOut (.executeTrajectory (ExecuteTrajectoryCommand.init rm traj dur))
      | _ => errOut "EXECUTETRAJECTORY trajectory must be non-empty list".toList

/-- command_parser.py lines 359-383: `_parse_set_io`: exact 3 fields,
`int(parts[1])` and `bool(int(parts[2]))`. -/
def parseSetOutput (pint : List Char → Option Int) (parts : List (List Char)) : ParseOut :=
  if parts.length ≠ 3 then
    errOut ("SET_IO expects 3 parts, got ".toList ++ (toString parts.length).toList)
  else
    match pint (parts.getD 1 []) with
    | none => errOut "SET_IO parameter error".toList
    | some output =>
      match pint (parts.getD 2 []) with
      | none => errOut "SET_IO parameter error".toList
      | some st => okOut (.setOutput (SetIOCommand.init output (st ≠ 0)))

/-- command_parser.py lines 385-411: `_parse_electric_gripper`: exact
5 fields; `NONE`/`MOVE` actions become `None`, the rest pass through
lower-cased; three integer fields. -/
def parseGripper (pint : List Char → Option Int) (parts : List (List Char)) : ParseOut :=
  if parts.length ≠ 5 then
    errOut ("ELECTRICGRIPPER expects 5 parts, got ".toList ++
      (toString parts.length).toList)
  else
    let action_str := (parts.getD 1 []).map asciiUpper
    let action : Option (List Char) :=
      if action_str = "NONE".toList ∨ action_str = "MOVE".toList then none
      else some ((parts.getD 1 []).map asciiLower)
    match pint (parts.getD 2 []) with
    | none => errOut "ELECTRICGRIPPER parameter error".toList
    | some pos =>
      match pint (parts.getD 3 []) with
      | none => errOut "ELECTRICGRIPPER parameter error".toList
      | some spd =>
        match pint (parts.getD 4 []) with
        | none => errOut "ELECTRICGRIPPER parameter error".toList
        | some cur => okOut (.gripper (GripperCommand.init action pos spd cur))

/-- command_parser.py lines 340-357: `_parse_delay`: exact 2 fields,
one float. -/
def parseDelay (pf : List Char → Option ℚ) (parts : List (List Char)) : ParseOut :=
  if parts.length ≠ 2 then
    errOut ("DELAY expects 2 parts, got ".toList ++ (toString parts.length).toList)
  else
    match pf (parts.getD 1 []) with
    | none => errOut "DELAY parameter error".toList
    | some d => okOut (.delay (DelayCommand.init d))

/-- command_parser.py lines 69-112 and 326-337: `CommandParser.parse`.
The message splits on pipes, the first field upper-cases to the command
name, the registry dispatches to the per-command decoder (`_parse_home`
performs no field-count check), and an unknown name is itself an
error.  The numeric and JSON decoders of the Python runtime are
abstract parameters. -/
def CommandParser.parse (rm : RobotModel)
    (pf : List Char → Option ℚ) (pint : List Char → Option Int)
    (pjson : List Char → Option PyJson) (message : List Char) : ParseOut :=
  let parts := pySplit '|' message
  let command_name := (parts.headD []).map asciiUpper
  if command_name = "HOME".toList then okOut (.home HomeCommand.init)
  else if command_name = "MOVEJOINT".toList then parseMoveJoint rm pf parts
  else if command_name = "EXECUTETRAJECTORY".toList then
    parseExecuteTrajectory rm pf pjson parts
  else if command_name = "SET_IO".toList then parseSetOutput pint parts
  else if command_name = "ELECTRICGRIPPER".toList then parseGripper pint parts
  else if command_name = "DELAY".toList then parseDelay pf parts
  else errOut ("Unknown command: ".toList ++ command_name)

lemma wellShaped_okOut (c : ParsedCommand) : WellShaped (okOut c) := Or.inl ⟨c, rfl⟩

lemma wellShaped_errOut (e : List Char) : WellShaped (errOut e) := Or.inr ⟨e, rfl⟩

lemma wellShaped_parseMoveJoint (rm : RobotModel) (pf : List Char → Option ℚ)
    (parts : List (List Char)) : WellShaped (parseMoveJoint rm pf parts) := by
  unfold parseMoveJoint
  split_ifs
  · exact wellShaped_errOut _
  · split
    · exact wellShaped_errOut _
    · split
      · exact wellShaped_errOut _
      · split
        · exact wellShaped_errOut _
        · exact wellShaped_okOut _

lemma wellShaped_parseExecuteTrajectory (rm : RobotModel)
    (pf : List Char → Option ℚ) (pjson : List Char → Option PyJson)
    (parts : List (List Char)) :
    WellShaped (parseExecuteTrajectory rm pf pjson parts) := by
  unfold parseExecuteTrajectory
  split_ifs
  · exact wellShaped_errOut _
  · split
    · exact wellShaped_errOut _
    · split
      · split_ifs
        · exact wellShaped_errOut _
        · exact wellShaped_errOut _
        · split
          · exact wellShaped_errOut _
          · split
            · exact wellShaped_errOut _
            · exact wellShaped_okOut _
      · exact wellShaped_errOut _

lemma wellShaped_parseSetOutput (pint : List Char → Option Int)
    (parts : List (List Char)) : WellShaped (parseSetOutput pint parts) := by
  unfold parseSetOutput
  split_ifs
  · exact wellShaped_errOut _
  · split
    · exact wellShaped_errOut _
    · split
      · exact wellShaped_errOut _
      · exact wellShaped_okOut _

lemma wellShaped_parseGripper (pint : List Char → Option Int)
    (parts : List (List Char)) : WellShaped (parseGripper pint parts) := by
  unfold parseGripper
  split_ifs
  · exact wellShaped_errOut _
  · split
    · exact wellShaped_errOut _
    · split
      · exact wellShaped_errOut _
      · split
        · exact wellShaped_errOut _
        · exact wellShaped_okOut _

lemma wellShaped_parseDelay (pf : List Char → Option ℚ)
    (parts : List (List Char)) : WellShaped (parseDelay pf parts) := by
  unfold parseDelay
  split_ifs
  · exact wellShaped_errOut _
  · split
    · exact wellShaped_errOut _
    · exact wellShaped_okOut _

/-- C8 counterexample: `HOME|junk` has two pipe-delimited fields where
`HOME` takes none, yet the parser succeeds — `_parse_home` never checks
the field count, so "field counts are exact-match per command type" is
false on the code. -/
theorem C8_counterexample :
    CommandParser.parse ⟨[]⟩ (fun _ => none) (fun _ => none) (fun _ => none)
      "HOME|junk".toList = (some (.home HomeCommand.init), none) ∧
    (pySplit '|' "HOME|junk".toList).length = 2 := by
  constructor
  · rfl
  · rfl

/-- C8 (amended): for every input string and every behaviour of the
numeric/JSON decoders, `CommandParser.parse` returns either
`(command, None)` or `(None, error)` — never anything else — and the
field counts of the parameterized command types are exact-match: a
MOVEJOINT message with other than exactly 9 pipe-delimited fields (and
likewise EXECUTETRAJECTORY 3, SET_IO 3, ELECTRICGRIPPER 5, DELAY 2)
yields `(None, error)` with the error reporting the count mismatch.
`HOME` alone ignores extra fields (see the counterexample). -/
theorem C8_parser_shape (rm : RobotModel)
    (pf : List Char → Option ℚ) (pint : List Char → Option Int)
    (pjson : List Char → Option PyJson) (message : List Char) :
    WellShaped (CommandParser.parse rm pf pint pjson message) ∧
    (((pySplit '|' message).headD []).map asciiUpper = "MOVEJOINT".toList →
      (pySplit '|' message).length ≠ 9 →
      CommandParser.parse rm pf pint pjson message =
        errOut ("MOVEJOINT expects 9 parts, got ".toList ++
          (toString (pySplit '|' message).length).toList)) ∧
    (((pySplit '|' message).headD []).map asciiUpper = "EXECUTETRAJECTORY".toList →
      (pySplit '|' message).length ≠ 3 →
      CommandParser.parse rm pf pint pjson message =
        errOut ("EXECUTETRAJECTORY expects 3 parts, got ".toList ++
          (toString (pySplit '|' message).length).toList)) ∧
    (((pySplit '|' message).headD []).map asciiUpper = "SET_IO".toList →
      (pySplit '|' message).length ≠ 3 →
      CommandParser.parse rm pf pint pjson message =
        errOut ("SET_IO expects 3 parts, got ".toList ++
          (toString (pySplit '|' message).length).toList)) ∧
    (((pySplit '|' message).headD []).map asciiUpper = "ELECTRICGRIPPER".toList →
      (pySplit '|' message).length ≠ 5 →
      CommandParser.parse rm pf pint pjson message =
        errOut ("ELECTRICGRIPPER expects 5 parts, got ".toList ++
          (toString (pySplit '|' message).length).toList)) ∧
    (((pySplit '|' message).headD []).map asciiUpper = "DELAY".toList →
      (pySplit '|' message).length ≠ 2 →
      CommandParser.parse rm pf pint pjson message =
        errOut ("DELAY expects 2 parts, got ".toList ++
          (toString (pySplit '|' message).length).toList)) := by
  refine ⟨?_, ?_, ?_, ?_, ?_, ?_⟩
  · unfold CommandParser.parse
    dsimp only
    split_ifs
    · exact wellShaped_okOut _
    · exact wellShaped_parseMoveJoint _ _ _
    · exact wellShaped_parseExecuteTrajectory _ _ _ _
    · exact wellShaped_parseSetOutput _ _
    · exact wellShaped_parseGripper _ _
    · exact wellShaped_parseDelay _ _
    · exact wellShaped_errOut _
  · intro hname hlen
    unfold CommandParser.parse
    dsimp only
    rw [if_neg (by rw [hname]; decide), if_pos hname]
    unfold parseMoveJoint
    rw [if_pos hlen]
  · intro hname hlen
    unfold CommandParser.parse
    dsimp only
    rw [if_neg (by rw [hname]; decide), if_neg (by rw [hname]; decide), if_pos hname]
    unfold parseExecuteTrajectory
    rw [if_pos hlen]
  · intro hname hlen
    unfold CommandParser.parse
    dsimp only
    rw [if_neg (by rw [hname]; decide), if_neg (by rw [hname]; decide),
      if_neg (by rw [hname]; decide), if_pos hname]
    unfold parseSetOutput
    rw [if_pos hlen]
  · intro hname hlen
    unfold CommandParser.parse
    dsimp only
    rw [if_neg (by rw [hname]; decide), if_neg (by rw [hname]; decide),
      if_neg (by rw [hname]; decide), if_neg (by rw [hname]; decide), if_pos hname]
    unfold parseGripper
    rw [if_pos hlen]
  · intro hname hlen
    unfold CommandParser.parse
    dsimp only
    rw [if_neg (by rw [hname]; decide), if_neg (by rw [hname]; decide),
      if_neg (by rw [hname]; decide), if_neg (by rw [hname]; decide),
      if_neg (by rw [hname]; decide), if_pos hname]
    unfold parseDelay
    rw [if_pos hlen]

/-- Witness for C8 on a malformed MOVEJOINT message with 2 fields. -/
theorem C8_parser_shape_witness :
    CommandParser.parse ⟨[]⟩ (fun _ => none) (fun _ => none) (fun _ => none)
      "MOVEJOINT|1".toList =
      errOut ("MOVEJOINT expects 9 parts, got ".toList ++ (toString 2).toList) := by
  have h := (C8_parser_shape ⟨[]⟩ (fun _ => none) (fun _ => none) (fun _ => none)
    "MOVEJOINT|1".toList).2.1 (by decide) (by decide)
  simpa using h

/-! ## Network handler command-ID parsing
(src/commander/network_handler.py lines 306-358) -/

/-- Whether the first list is a prefix of the second. -/
def leadsWith : List Char → List Char → Bool
  | [], _ => true
  | _ :: _, [] => false
  | p :: ps, c :: cs => p = c && leadsWith ps cs

/-- Python substring containment `pat in s`. -/
def pyContains (pat : List Char) : List Char → Bool
  | [] => pat.isEmpty
  | c :: rest => leadsWith pat (c :: rest) || pyContains pat rest

/-- Index of the first occurrence of `pat` (Python `str.index`). -/
def firstOcc (pat : List Char) : List Char → Option Nat
  | [] => if pat.isEmpty then some 0 else none
  | c :: rest =>
    if leadsWith pat (c :: rest) then some 0 else (firstOcc pat rest).map (· + 1)

/-- Index of the last occurrence of `pat` (Python `str.rindex`). -/
def lastOcc (pat : List Char) : List Char → Option Nat
  | [] => if pat.isEmpty then some 0 else none
  | c :: rest =>
    match lastOcc pat rest with
    | some i => some (i + 1)
    | none => if leadsWith pat (c :: rest) then some 0 else none

/-- Python `str.find(c)`: first index or -1. -/
def pyFind : List Char → Char → Int
  | [], _ => -1
  | x :: rest, c =>
    if x = c then 0
    else
      let r := pyFind rest c
      if r < 0 then -1 else r + 1

/-- The characters Python `str.strip()` removes. -/
def isPySpace (c : Char) : Bool :=
  c = ' ' || c = '\t' || c = '\n' || c = '\r' ||
    c = Char.ofNat 11 || c = Char.ofNat 12

/-- Python `str.strip()`. -/
def pyStrip (s : List Char) : List Char :=
  ((s.dropWhile isPySpace).reverse.dropWhile isPySpace).reverse

/-- Python `str.lstrip('):')`. -/
def pyLStripParenColon (s : List Char) : List Char :=
  s.dropWhile (fun c => c = ')' || c = ':')

/-- Python `str.split(sep, 1)`: one or two fields. -/
def pySplitOnce (sep : Char) : List Char → List (List Char)
  | [] => [[]]
  | c :: rest =>
    if c = sep then [[], rest]
    else match pySplitOnce sep rest with
      | [] => [[c]]
      | h :: t => (c :: h) :: t

/-- ASCII letter or digit. -/
def asciiIsAlnum (c : Char) : Bool :=
  ('0' ≤ c && c ≤ '9') || ('a' ≤ c && c ≤ 'z') || ('A' ≤ c && c ≤ 'Z')

/-- Python `str.isalnum()` over ASCII: nonempty and all alphanumeric. -/
def pyIsAlnum (s : List Char) : Bool :=
  !s.isEmpty && s.all asciiIsAlnum

/-- An ASCII cased character. -/
def asciiIsCased (c : Char) : Bool :=
  ('a' ≤ c && c ≤ 'z') || ('A' ≤ c && c ≤ 'Z')

/-- An ASCII lowercase letter. -/
def asciiIsLower (c : Char) : Bool :=
  'a' ≤ c && c ≤ 'z'

/-- Python `str.isupper()` over ASCII: at least one cased character and
no lowercase one. -/
def pyIsUpper (s : List Char) : Bool :=
  s.any asciiIsCased && s.all (fun c => !asciiIsLower c)

/-- network_handler.py lines 306-358: `_parse_command_id`.  The
bracket form `[id]BODY` is tried first; failing that, a
logging-artifact prefix is stripped (text up to the last `):` or after
the first `ID:`), then the legacy `id|BODY` form is accepted when the
first pipe-delimited field has exactly 8 characters, is alphanumeric
after removing hyphens, and is not all-uppercase; otherwise the ID is
`None` and the (possibly artifact-stripped) message is returned. -/
def parseCommandId (message : List Char) : Option (List Char) × List Char :=
  let bracketResult : Option (Option (List Char) × List Char) :=
    if message.head? = some '[' then
      let idx := pyFind message ']'
      if 0 < idx then
        some (some ((message.drop 1).take (idx.toNat - 1)), message.drop (idx.toNat + 1))
      else none
    else none
  match bracketResult with
  | some r => r
  | none =>
    let m :=
      if pyContains "ID:".toList message || pyContains "):".toList message then
        if pyContains "):".toList message then
          pyStrip (message.drop ((lastOcc "):".toList message).getD 0 + 2))
        else
          pyStrip (pyLStripParenColon
            (pyStrip (message.drop ((firstOcc "ID:".toList message).getD 0 + 3))))
      else message
    let parts := pySplitOnce '|' m
    if 1 < parts.length ∧ (parts.getD 0 []).length = 8 ∧
        pyIsAlnum ((parts.getD 0 []).filter (fun c => c ≠ '-')) = true ∧
        pyIsUpper (parts.getD 0 []) = false then
      (some (parts.getD 0 []), parts.getD 1 [])
    else (none, m)

/-- C9 counterexample: `FOO):BAR` matches neither ID-prefix form, yet
`_parse_command_id` returns `(None, "BAR")`, not the whole message —
the logging-artifact cleanup (`"):"` handling) rewrites the returned
body, so "any message matching neither form yields (None,
whole-message)" is false on the code. -/
theorem C9_counterexample :
    parseCommandId "FOO):BAR".toList = (none, "BAR".toList) ∧
    "BAR".toList ≠ "FOO):BAR".toList := by
  exact ⟨rfl, by decide⟩

/-- Splitting once at the separator recovers the two halves. -/
lemma pySplitOnce_append (sep : Char) (f rest : List Char)
    (hf : sep ∉ f) : pySplitOnce sep (f ++ sep :: rest) = [f, rest] := by
  induction f with
  | nil => simp [pySplitOnce]
  | cons c cs ih =>
    have hcs : sep ∉ cs := fun h => hf (List.mem_cons_of_mem c h)
    have hc : ¬c = sep := by
      intro h
      exact hf (by rw [h]; exact List.mem_cons_self _ _)
    simp only [List.cons_append, pySplitOnce, List.append_eq]
    rw [if_neg hc, ih hcs]

/-- `pyFind` locates the first closing bracket after a bracket-free
identifier. -/
lemma pyFind_marker (rest : List Char) : ∀ l : List Char, (']' : Char) ∉ l →
    pyFind (l ++ ']' :: rest) ']' = (l.length : Int) := by
  intro l
  induction l with
  | nil => intro _; simp [pyFind]
  | cons x xs ih =>
    intro hx
    have hxs : (']' : Char) ∉ xs := fun h => hx (List.mem_cons_of_mem x h)
    have hxne : ¬x = ']' := by
      intro h
      exact hx (by rw [h]; exact List.mem_cons_self _ _)
    simp only [List.cons_append, pyFind, List.append_eq]
    rw [if_neg hxne, ih hxs, if_neg (by omega)]
    simp only [List.length_cons]
    push_cast
    omega

/-- C9 (amended): `_parse_command_id` recognizes the bracket form
`[id]BODY` for any message; for messages free of the logging-artifact
markers `ID:` and `):`, it recognizes the legacy `id|BODY` form exactly
when the first pipe-delimited field has 8 characters, is alphanumeric
after removing hyphens, and is not all-uppercase, and any message
matching neither form yields `(None, whole-message)`.  (A message
containing an artifact marker can have its returned body rewritten —
see the counterexample.) -/
theorem C9_parse_command_id :
    (∀ (cid rest : List Char), (']' : Char) ∉ cid →
      parseCommandId ('[' :: cid ++ ']' :: rest) = (some cid, rest)) ∧
    (∀ (f rest : List Char), f.head? ≠ some '[' → ('|' : Char) ∉ f →
      pyContains "ID:".toList (f ++ '|' :: rest) = false →
      pyContains "):".toList (f ++ '|' :: rest) = false →
      f.length = 8 → pyIsAlnum (f.filter (fun c => c ≠ '-')) = true →
      pyIsUpper f = false →
      parseCommandId (f ++ '|' :: rest) = (some f, rest)) ∧
    (∀ msg : List Char,
      (msg.head? = some '[' → pyFind msg ']' ≤ 0) →
      pyContains "ID:".toList msg = false →
      pyContains "):".toList msg = false →
      ¬(1 < (pySplitOnce '|' msg).length ∧
        ((pySplitOnce '|' msg).getD 0 []).length = 8 ∧
        pyIsAlnum (((pySplitOnce '|' msg).getD 0 []).filter (fun c => c ≠ '-')) = true ∧
        pyIsUpper ((pySplitOnce '|' msg).getD 0 []) = false) →
      parseCommandId msg = (none, msg)) := by
  refine ⟨?_, ?_, ?_⟩
  · intro cid rest hc
    have hnotin : (']' : Char) ∉ '[' :: cid := by
      intro h
      rcases List.mem_cons.1 h with h | h
      · exact absurd h.symm (by decide)
      · exact hc h
    have hidx : pyFind ('[' :: cid ++ ']' :: rest) ']' = ((cid.length : Int) + 1) := by
      have h := pyFind_marker rest ('[' :: cid) hnotin
      simpa using h
    unfold parseCommandId
    dsimp only
    simp only [hidx]
    rw [if_pos (show ('[' :: cid ++ ']' :: rest).head? = some '[' from rfl)]
    rw [if_pos (show (0 : Int) < (cid.length : Int) + 1 by omega)]
    have ht : ((cid.length : Int) + 1).toNat = cid.length + 1 := by omega
    rw [ht]
    dsimp only
    refine congrArg₂ Prod.mk ?_ ?_
    · rw [List.drop_one]
      have h9 : ('[' :: cid ++ ']' :: rest).tail = cid ++ ']' :: rest := rfl
      rw [h9, Nat.add_sub_cancel]
      exact congrArg some (List.take_left cid (']' :: rest))
    · have h9 : cid ++ ']' :: rest = (cid ++ [']']) ++ rest := by simp
      have h10 : ('[' :: cid ++ ']' :: rest).drop (cid.length + 1 + 1) =
          ((cid ++ [']']) ++ rest).drop (cid.length + 1) := by
        rw [← h9]
        rfl
      rw [h10, show cid.length + 1 = (cid ++ [']']).length by simp]
      exact List.drop_left (cid ++ [']']) rest
  · intro f rest hhead hpipe hart1 hart2 hlen halnum hupper
    obtain ⟨c, cs, rfl⟩ : ∃ c cs, f = c :: cs := by
      cases f with
      | nil => simp at hlen
      | cons c cs => exact ⟨c, cs, rfl⟩
    unfold parseCommandId
    dsimp only
    rw [if_neg (by simpa using hhead)]
    dsimp only
    rw [hart1, hart2]
    rw [if_neg (show ¬((false || false) = true) by simp)]
    rw [pySplitOnce_append '|' (c :: cs) rest hpipe]
    rw [if_pos ⟨by simp, by simpa using hlen, by simpa using halnum, by simpa using hupper⟩]
    rfl
  · intro msg hbr hart1 hart2 hbad
    unfold parseCommandId
    dsimp only
    split
    case h_1 r heq =>
      exfalso
      by_cases hh : msg.head? = some '['
      · rw [if_pos hh, if_neg (by have := hbr hh; omega)] at heq
        exact absurd heq (by simp)
      · rw [if_neg hh] at heq
        exact absurd heq (by simp)
    case h_2 heq =>
      rw [hart1, hart2]
      rw [if_neg (show ¬((false || false) = true) by simp)]
      rw [if_neg hbad]

/-- Witness for C9: the bracketed message `[ab12]HOME` parses into the
ID `ab12` and the body `HOME`. -/
theorem C9_parse_command_id_witness :
    parseCommandId "[ab12]HOME".toList = (some "ab12".toList, "HOME".toList) := by
  have h := C9_parse_command_id.1 "ab12".toList "HOME".toList (by decide)
  exact h

/-! ### Part 6 — the control loop (commander.py 1263-1812), for C1 and C2.

The loop inspects a command object only through `is_valid`,
`prepare_for_execution` and `execute_step`, so `LoopCmd` keeps exactly
those observables: `prepFails` abstracts "`prepare_for_execution`
raises", after which commander.py 1612-1617 sets `is_valid = False`;
`errState` abstracts the `error_state` attribute checked at completion
(commander.py 1735-1741); `stepsLeft` drives the boolean that
`execute_step` returns.  Feedback positions (`Position_in`) are
`List Int`.

The `command_queue` module is not part of src/.  Modelled from the spec:
`CommandQueue` is a FIFO — `pop` returns the oldest queued command, and
`clear(cancel_callback)` invokes the callback on every queued command in
order and empties the queue. -/

structure LoopCmd where
  ident : Nat
  valid : Bool
  prepFails : Bool
  errState : Bool
  preparedWith : Option (List Int)
  stepsLeft : Nat
deriving DecidableEq

/-- `new_command.prepare_for_execution(current_position_in=Position_in)`
as the loop sees it (commander.py 1606-1617): the command is prepared
against the live feedback `fb`; if the preparation raises, the loop sets
`is_valid = False`. -/
def prepareForExecution (fb : List Int) (c : LoopCmd) : LoopCmd :=
  { c with preparedWith := some fb, valid := c.valid && !c.prepFails }

/-- `execute_step` mutates the command; the loop only sees the returned
done flag, modelled by `stepsLeft` counting invocations down. -/
def LoopCmd.step (c : LoopCmd) : LoopCmd :=
  { c with stepsLeft := c.stepsLeft - 1 }

/-- The statuses `network_handler.send_ack` is called with in the loop. -/
inductive AckStatus where
  | queued
  | invalid
  | rejected
  | executing
  | completed
  | failed
  | cancelled
deriving DecidableEq

/-- Observable loop events: an acknowledgment sent for a tracked command
id, or an invocation of `execute_step` on a command (recorded with the
command state and the `Position_in` of that cycle). -/
inductive LEvent where
  | ack (cmdId : Nat) (st : AckStatus)
  | exec (c : LoopCmd) (fb : List Int)
deriving DecidableEq

/-- One entry of `incoming_command_buffer` (a `(cmd_id, message, addr)`
triple): `cmdId` is the optional tracking id, and the message is
abstracted by its parse outcome `parsed` (`none` = `command_parser.parse`
returns no command) together with the `can_add` answer the queue gives
(commander.py 1505-1510). -/
structure BufEntry where
  cmdId : Option Nat
  parsed : Option LoopCmd
  canAdd : Bool
deriving DecidableEq

/-- The loop state: `command_queue`, `incoming_command_buffer`,
`active_command`/`active_command_id`, `command_id_map` (an association
list command-identity ↦ cmd_id), `e_stop_active`, `Command_out.value`
and `Speed_out`. -/
structure LoopState where
  queue : List LoopCmd
  buffer : List BufEntry
  active : Option LoopCmd
  activeId : Option Nat
  idMap : List (Nat × Nat)
  estopActive : Bool
  commandOut : Int
  speedOut : List Int
deriving DecidableEq

/-- Per-cycle external input: freshly received buffer entries, the
e-stop input `InOut_in[4]`, the feedback position `Position_in`, whether
the command cooldown has elapsed, and whether the re-enable key is
pressed. -/
structure CycleInput where
  incoming : List BufEntry
  inOut4 : Int
  fb : List Int
  cooldownOk : Bool
  keyRe : Bool
deriving DecidableEq

/-- The acknowledgment sent when the command is tracked — in the code
every `send_ack` in the lifecycle is guarded by `if cmd_id:`. -/
def ackOpt (cid : Option Nat) (st : AckStatus) : List LEvent :=
  match cid with
  | some i => [LEvent.ack i st]
  | none => []

/-- `del command_id_map[cmd]` keyed by command identity. -/
def eraseIdent (k : Nat) (m : List (Nat × Nat)) : List (Nat × Nat) :=
  m.filter (fun p => !(p.1 == k))

/-- `estop_cancel_callback` run by `command_queue.clear` (commander.py
1554-1562): a CANCELLED acknowledgment for each queued command that is
in `command_id_map`, in queue order. -/
def cancelAcks (m : List (Nat × Nat)) : List LoopCmd → List LEvent
  | [] => []
  | c :: rest =>
    (match m.lookup c.ident with
     | some i => [LEvent.ack i AckStatus.cancelled]
     | none => []) ++ cancelAcks m rest

/-- commander.py 1564-1567: a CANCELLED acknowledgment for each buffered
but unprocessed command that carries a cmd_id. -/
def bufferCancelAcks : List BufEntry → List LEvent
  | [] => []
  | e :: rest => ackOpt e.cmdId AckStatus.cancelled ++ bufferCancelAcks rest

/-- The processing phase (commander.py 1447-1523): when the buffer is
nonempty, the cooldown has elapsed and the e-stop is inactive, pop one
buffered command, parse it, validate, ask the queue, and acknowledge.
(`SET_RECORDING`, handled inline at 1464-1482, never reaches the queue
and is outside this model.) -/
def processPhase (inp : CycleInput) (s : LoopState) : LoopState × List LEvent :=
  match s.buffer with
  | [] => (s, [])
  | e :: rest =>
    if inp.cooldownOk && !s.estopActive then
      match e.parsed with
      | none => ({ s with buffer := rest }, ackOpt e.cmdId AckStatus.invalid)
      | some c =>
        if !c.valid then
          ({ s with buffer := rest }, ackOpt e.cmdId AckStatus.invalid)
        else if !e.canAdd then
          ({ s with buffer := rest }, ackOpt e.cmdId AckStatus.rejected)
        else
          let m :=
            match e.cmdId with
            | some i => s.idMap ++ [(c.ident, i)]
            | none => s.idMap
          ({ s with buffer := rest, queue := s.queue ++ [c], idMap := m },
            ackOpt e.cmdId AckStatus.queued)
    else (s, [])

/-- commander.py 1652-1771: run `execute_step` on the active command —
the exec event records the command state and the `Position_in` passed —
then handle completion (COMPLETED, or FAILED when `error_state` is set,
acknowledged only when tracked; then cleanup).  When no command is
active the loop idles: `Command_out = 255`, speeds zeroed
(commander.py 1767-1771). -/
def execActive (inp : CycleInput) (s : LoopState) (acc : List LEvent) :
    LoopState × List LEvent :=
  match s.active with
  | none => ({ s with commandOut := 255, speedOut := List.replicate 6 0 }, acc)
  | some c =>
    if c.stepsLeft == 0 then
      ({ s with active := none, activeId := none,
                idMap := eraseIdent c.ident s.idMap },
        acc ++ [LEvent.exec c inp.fb] ++
          ackOpt s.activeId
            (if c.errState then AckStatus.failed else AckStatus.completed))
    else
      ({ s with active := some c.step }, acc ++ [LEvent.exec c inp.fb])

/-- The main execution phase (commander.py 1526-1771).

* `InOut_in[4] = 0`: e-stop pressed.  On the edge (`e_stop_active`
  still false) a CANCELLED acknowledgment goes to the active command if
  it is tracked, then to every tracked queued command via
  `command_queue.clear`, then to every buffered command with a cmd_id;
  the queue is emptied.  Every e-stop-pressed cycle sets
  `Command_out = 102`, zeroes the speeds, drops the active command and
  clears `command_id_map` and the buffer.
* e-stop latched and the input released: wait for the re-enable key —
  pressed sets `Command_out = 101` and clears the latch, otherwise
  `Command_out = 255` and zero speeds.
* otherwise the normal lifecycle: with no active command, pop the queue
  head; discard it with an INVALID acknowledgment if invalid at pop
  (the `continue` at 1605 skips the rest of the cycle), otherwise
  prepare it against this cycle's `Position_in`; discard with FAILED if
  the preparation failed; otherwise activate it, acknowledge EXECUTING,
  and fall through to `execute_step` the same cycle. -/
def mainPhase (inp : CycleInput) (s : LoopState) : LoopState × List LEvent :=
  if inp.inOut4 = 0 then
    if s.estopActive then
      ({ s with commandOut := 102, speedOut := List.replicate 6 0,
                active := none, activeId := none, idMap := [], buffer := [] },
        [])
    else
      ({ s with queue := [], estopActive := true, commandOut := 102,
                speedOut := List.replicate 6 0, active := none,
                activeId := none, idMap := [], buffer := [] },
        (match s.active, s.activeId with
         | some _, some i => [LEvent.ack i AckStatus.cancelled]
         | _, _ => []) ++ cancelAcks s.idMap s.queue ++ bufferCancelAcks s.buffer)
  else if s.estopActive then
    if inp.keyRe then
      ({ s with commandOut := 101, estopActive := false }, [])
    else
      ({ s with commandOut := 255, speedOut := List.replicate 6 0 }, [])
  else
    match s.queue, s.active with
    | [], _ => execActive inp s []
    | c :: rest, none =>
      let cid := s.idMap.lookup c.ident
      if !c.valid then
        ({ s with queue := rest, idMap := eraseIdent c.ident s.idMap },
          ackOpt cid AckStatus.invalid)
      else
        let c' := prepareForExecution inp.fb c
        if !c'.valid then
          execActive inp
            { s with queue := rest, idMap := eraseIdent c.ident s.idMap }
            (ackOpt cid AckStatus.failed)
        else
          execActive inp
            { s with queue := rest, active := some c', activeId := cid }
            (ackOpt cid AckStatus.executing)
    | _ :: _, some _ => execActive inp s []

/-- One iteration of the `while True` loop at commander.py 1263: the
network phase appends received commands to `incoming_command_buffer`,
the processing phase pops at most one of them, then the main execution
phase runs. -/
def loopCycle (inp : CycleInput) (s : LoopState) : LoopState × List LEvent :=
  let r1 := processPhase inp { s with buffer := s.buffer ++ inp.incoming }
  let r2 := mainPhase inp r1.1
  (r2.1, r1.2 ++ r2.2)

/-- Run the loop over a list of per-cycle inputs, collecting all events. -/
def loopRun : List CycleInput → LoopState → LoopState × List LEvent
  | [], s => (s, [])
  | inp :: rest, s =>
    let r := loopCycle inp s
    let r2 := loopRun rest r.1
    (r2.1, r.2 ++ r2.2)

/-- The lifecycle invariant behind C1: whatever command is active is
valid and has been prepared. -/
def ActiveOk (s : LoopState) : Prop :=
  ∀ c, s.active = some c → c.valid = true ∧ c.preparedWith.isSome = true

theorem ackOpt_no_exec (cid : Option Nat) (st : AckStatus) (c : LoopCmd)
    (fb : List Int) : LEvent.exec c fb ∉ ackOpt cid st := by
  cases cid <;> simp [ackOpt]

theorem cancelAcks_no_exec (m : List (Nat × Nat)) (q : List LoopCmd)
    (c : LoopCmd) (fb : List Int) : LEvent.exec c fb ∉ cancelAcks m q := by
  induction q with
  | nil => simp [cancelAcks]
  | cons d rest ih =>
    simp only [cancelAcks, List.mem_append]
    rintro (h | h)
    · cases hl : m.lookup d.ident <;> rw [hl] at h <;> simp at h
    · exact ih h

theorem bufferCancelAcks_no_exec (l : List BufEntry) (c : LoopCmd)
    (fb : List Int) : LEvent.exec c fb ∉ bufferCancelAcks l := by
  induction l with
  | nil => simp [bufferCancelAcks]
  | cons e rest ih =>
    simp only [bufferCancelAcks, List.mem_append]
    rintro (h | h)
    · exact ackOpt_no_exec _ _ _ _ h
    · exact ih h

theorem processPhase_no_exec (inp : CycleInput) (s : LoopState) (c : LoopCmd)
    (fb : List Int) : LEvent.exec c fb ∉ (processPhase inp s).2 := by
  unfold processPhase
  cases hb : s.buffer with
  | nil => simp
  | cons e rest =>
    dsimp only
    by_cases hg : (inp.cooldownOk && !s.estopActive) = true
    · rw [if_pos hg]
      cases hp : e.parsed with
      | none => exact ackOpt_no_exec _ _ _ _
      | some d =>
        dsimp only
        by_cases hv : (!d.valid) = true
        · rw [if_pos hv]
          exact ackOpt_no_exec _ _ _ _
        · rw [if_neg hv]
          by_cases ha : (!e.canAdd) = true
          · rw [if_pos ha]
            exact ackOpt_no_exec _ _ _ _
          · rw [if_neg ha]
            exact ackOpt_no_exec _ _ _ _
    · rw [if_neg hg]
      simp

theorem processPhase_active (inp : CycleInput) (s : LoopState) :
    (processPhase inp s).1.active = s.active ∧
      (processPhase inp s).1.activeId = s.activeId := by
  unfold processPhase
  cases hb : s.buffer with
  | nil => exact ⟨rfl, rfl⟩
  | cons e rest =>
    dsimp only
    by_cases hg : (inp.cooldownOk && !s.estopActive) = true
    · rw [if_pos hg]
      cases hp : e.parsed with
      | none => exact ⟨rfl, rfl⟩
      | some d =>
        dsimp only
        by_cases hv : (!d.valid) = true
        · rw [if_pos hv]
          exact ⟨rfl, rfl⟩
        · rw [if_neg hv]
          by_cases ha : (!e.canAdd) = true
          · rw [if_pos ha]
            exact ⟨rfl, rfl⟩
          · rw [if_neg ha]
            exact ⟨rfl, rfl⟩
    · rw [if_neg hg]
      exact ⟨rfl, rfl⟩

theorem execActive_exec_sound (inp : CycleInput) (s : LoopState)
    (acc : List LEvent) (c : LoopCmd) (fb : List Int)
    (h : LEvent.exec c fb ∈ (execActive inp s acc).2) :
    LEvent.exec c fb ∈ acc ∨ (s.active = some c ∧ fb = inp.fb) := by
  unfold execActive at h
  cases ha : s.active with
  | none =>
    rw [ha] at h
    exact Or.inl h
  | some d =>
    rw [ha] at h
    dsimp only at h
    by_cases hd : (d.stepsLeft == 0) = true
    · rw [if_pos hd] at h
      dsimp only at h
      rcases List.mem_append.mp h with h1 | h2
      · rcases List.mem_append.mp h1 with h3 | h4
        · exact Or.inl h3
        · simp only [List.mem_singleton, LEvent.exec.injEq] at h4
          exact Or.inr ⟨by rw [h4.1], h4.2⟩
      · exact absurd h2 (ackOpt_no_exec _ _ _ _)
    · rw [if_neg hd] at h
      dsimp only at h
      rcases List.mem_append.mp h with h1 | h4
      · exact Or.inl h1
      · simp only [List.mem_singleton, LEvent.exec.injEq] at h4
        exact Or.inr ⟨by rw [h4.1], h4.2⟩

theorem execActive_activeOk (inp : CycleInput) (s : LoopState)
    (acc : List LEvent) (h : ActiveOk s) : ActiveOk (execActive inp s acc).1 := by
  intro c hc
  unfold execActive at hc
  cases ha : s.active with
  | none =>
    rw [ha] at hc
    dsimp only at hc
    cases hc
  | some d =>
    rw [ha] at hc
    dsimp only at hc
    by_cases hd : (d.stepsLeft == 0) = true
    · rw [if_pos hd] at hc
      dsimp only at hc
      cases hc
    · rw [if_neg hd] at hc
      dsimp only at hc
      obtain ⟨hv, hp⟩ := h d ha
      have he : d.step = c := Option.some.inj hc
      subst he
      exact ⟨hv, hp⟩

theorem mainPhase_exec_sound (inp : CycleInput) (s : LoopState)
    (c : LoopCmd) (fb : List Int)
    (h : LEvent.exec c fb ∈ (mainPhase inp s).2) :
    fb = inp.fb ∧
      (s.active = some c ∨
        (s.active = none ∧ ∃ c₀ rest, s.queue = c₀ :: rest ∧
          c = prepareForExecution inp.fb c₀ ∧ c₀.valid = true ∧
          c₀.prepFails = false)) := by
  unfold mainPhase at h
  by_cases hio : inp.inOut4 = 0
  · rw [if_pos hio] at h
    by_cases hes : s.estopActive = true
    · rw [if_pos hes] at h
      simp at h
    · rw [if_neg hes] at h
      dsimp only at h
      rcases List.mem_append.mp h with h1 | h2
      · rcases List.mem_append.mp h1 with h3 | h4
        · exfalso
          cases hsa : s.active <;> cases hsi : s.activeId <;>
            rw [hsa, hsi] at h3 <;> simp at h3
        · exact absurd h4 (cancelAcks_no_exec _ _ _ _)
      · exact absurd h2 (bufferCancelAcks_no_exec _ _ _)
  · rw [if_neg hio] at h
    by_cases hes : s.estopActive = true
    · rw [if_pos hes] at h
      by_cases hk : inp.keyRe = true
      · rw [if_pos hk] at h
        simp at h
      · rw [if_neg hk] at h
        simp at h
    · rw [if_neg hes] at h
      cases hq : s.queue with
      | nil =>
        rw [hq] at h
        dsimp only at h
        rcases execActive_exec_sound inp s [] c fb h with h1 | ⟨h2, h3⟩
        · simp at h1
        · exact ⟨h3, Or.inl h2⟩
      | cons c₀ rest =>
        rw [hq] at h
        cases ha : s.active with
        | some d =>
          rw [ha] at h
          dsimp only at h
          rcases execActive_exec_sound inp s [] c fb h with h1 | ⟨h2, h3⟩
          · simp at h1
          · refine ⟨h3, Or.inl ?_⟩
            rw [← ha]
            exact h2
        | none =>
          rw [ha] at h
          dsimp only at h
          by_cases hv : (!c₀.valid) = true
          · rw [if_pos hv] at h
            exact absurd h (ackOpt_no_exec _ _ _ _)
          · rw [if_neg hv] at h
            by_cases hv2 : (!(prepareForExecution inp.fb c₀).valid) = true
            · rw [if_pos hv2] at h
              rcases execActive_exec_sound inp _ _ c fb h with h1 | ⟨h2, h3⟩
              · exact absurd h1 (ackOpt_no_exec _ _ _ _)
              · exact Option.noConfusion
                  (show (none : Option LoopCmd) = some c from h2)
            · rw [if_neg hv2] at h
              rcases execActive_exec_sound inp _ _ c fb h with h1 | ⟨h2, h3⟩
              · exact absurd h1 (ackOpt_no_exec _ _ _ _)
              · have hc : c = prepareForExecution inp.fb c₀ :=
                  (Option.some.inj h2).symm
                have hv' : c₀.valid = true := by
                  simpa using hv
                have hp' : c₀.prepFails = false := by
                  have hvv : (prepareForExecution inp.fb c₀).valid = true := by
                    simpa using hv2
                  simp only [prepareForExecution, Bool.and_eq_true,
                    Bool.not_eq_true'] at hvv
                  exact hvv.2
                exact ⟨h3, Or.inr ⟨rfl, c₀, rest, rfl, hc, hv', hp'⟩⟩

theorem mainPhase_activeOk (inp : CycleInput) (s : LoopState)
    (h : ActiveOk s) : ActiveOk (mainPhase inp s).1 := by
  unfold mainPhase
  by_cases hio : inp.inOut4 = 0
  · rw [if_pos hio]
    by_cases hes : s.estopActive = true
    · rw [if_pos hes]
      intro c hc
      cases hc
    · rw [if_neg hes]
      intro c hc
      cases hc
  · rw [if_neg hio]
    by_cases hes : s.estopActive = true
    · rw [if_pos hes]
      by_cases hk : inp.keyRe = true
      · rw [if_pos hk]
        intro c hc
        exact h c hc
      · rw [if_neg hk]
        intro c hc
        exact h c hc
    · rw [if_neg hes]
      cases hq : s.queue with
      | nil =>
        dsimp only
        exact execActive_activeOk inp s [] h
      | cons c₀ rest =>
        cases ha : s.active with
        | some d =>
          dsimp only
          exact execActive_activeOk inp s [] h
        | none =>
          dsimp only
          by_cases hv : (!c₀.valid) = true
          · rw [if_pos hv]
            intro c hc
            exact Option.noConfusion
              (show (none : Option LoopCmd) = some c from hc)
          · rw [if_neg hv]
            by_cases hv2 : (!(prepareForExecution inp.fb c₀).valid) = true
            · rw [if_pos hv2]
              apply execActive_activeOk
              intro c hc
              exact Option.noConfusion
                (show (none : Option LoopCmd) = some c from hc)
            · rw [if_neg hv2]
              apply execActive_activeOk
              intro c hc
              have hc' : prepareForExecution inp.fb c₀ = c := Option.some.inj hc
              subst hc'
              refine ⟨by simpa using hv2, ?_⟩
              simp [prepareForExecution]

theorem mainPhase_discard (inp : CycleInput) (s : LoopState) (c₀ : LoopCmd)
    (rest : List LoopCmd) (hact : s.active = none) (hq : s.queue = c₀ :: rest)
    (hes : s.estopActive = false) (hio : inp.inOut4 ≠ 0)
    (hbad : c₀.valid = false ∨ c₀.prepFails = true) :
    (mainPhase inp s).1.active = none ∧ (mainPhase inp s).1.queue = rest ∧
      ∀ c fb, LEvent.exec c fb ∉ (mainPhase inp s).2 := by
  unfold mainPhase
  rw [if_neg hio, if_neg (by simp [hes])]
  rw [hq, hact]
  dsimp only
  rcases hbad with hbv | hbp
  · have hv : (!c₀.valid) = true := by simp [hbv]
    rw [if_pos hv]
    exact ⟨rfl, rfl, fun c fb => ackOpt_no_exec _ _ _ _⟩
  · by_cases hv : (!c₀.valid) = true
    · rw [if_pos hv]
      exact ⟨rfl, rfl, fun c fb => ackOpt_no_exec _ _ _ _⟩
    · rw [if_neg hv]
      have hv2 : (!(prepareForExecution inp.fb c₀).valid) = true := by
        simp [prepareForExecution, hbp]
      rw [if_pos hv2]
      unfold execActive
      dsimp only
      exact ⟨rfl, rfl, fun c fb => ackOpt_no_exec _ _ _ _⟩

theorem mainPhase_exec_valid (inp : CycleInput) (s : LoopState)
    (h : ActiveOk s) (c : LoopCmd) (fb : List Int)
    (hm : LEvent.exec c fb ∈ (mainPhase inp s).2) :
    fb = inp.fb ∧ c.valid = true ∧ c.preparedWith.isSome = true := by
  obtain ⟨hfb, hd⟩ := mainPhase_exec_sound inp s c fb hm
  refine ⟨hfb, ?_⟩
  rcases hd with ha | ⟨_, c₀, rest, _, hc, hv, hp⟩
  · exact h c ha
  · subst hc
    refine ⟨?_, ?_⟩
    · simp [prepareForExecution, hv, hp]
    · simp [prepareForExecution]

theorem loopCycle_activeOk (inp : CycleInput) (s : LoopState)
    (h : ActiveOk s) : ActiveOk (loopCycle inp s).1 := by
  unfold loopCycle
  dsimp only
  apply mainPhase_activeOk
  intro c hc
  rw [(processPhase_active inp { s with buffer := s.buffer ++ inp.incoming }).1]
    at hc
  exact h c hc

theorem loopCycle_exec_valid (inp : CycleInput) (s : LoopState)
    (h : ActiveOk s) (c : LoopCmd) (fb : List Int)
    (hm : LEvent.exec c fb ∈ (loopCycle inp s).2) :
    c.valid = true ∧ c.preparedWith.isSome = true := by
  unfold loopCycle at hm
  dsimp only at hm
  rcases List.mem_append.mp hm with h1 | h2
  · exact absurd h1 (processPhase_no_exec _ _ _ _)
  · have hok : ActiveOk (processPhase inp
        { s with buffer := s.buffer ++ inp.incoming }).1 := by
      intro d hd
      rw [(processPhase_active inp
        { s with buffer := s.buffer ++ inp.incoming }).1] at hd
      exact h d hd
    exact (mainPhase_exec_valid inp _ hok c fb h2).2

theorem loopRun_exec_valid (inps : List CycleInput) (s : LoopState)
    (h : ActiveOk s) (c : LoopCmd) (fb : List Int)
    (hm : LEvent.exec c fb ∈ (loopRun inps s).2) :
    c.valid = true ∧ c.preparedWith.isSome = true := by
  induction inps generalizing s with
  | nil => simp [loopRun] at hm
  | cons inp rest ih =>
    unfold loopRun at hm
    dsimp only at hm
    rcases List.mem_append.mp hm with h1 | h2
    · exact loopCycle_exec_valid inp s h c fb h1
    · exact ih (loopCycle inp s).1 (loopCycle_activeOk inp s h) h2

/-- C1: the command lifecycle of the main loop (commander.py
1587-1663) invokes `execute_step` only on a valid, prepared command,
and always passes it the cycle's live `Position_in`: (1) every exec
event of a cycle carries the cycle's feedback and a valid, prepared
command; (2) the invariant "the active command is valid and prepared"
is preserved; (3) a freshly activated command is exactly the queue
head prepared against this cycle's `Position_in` — never state from
enqueue time — and it was valid with a succeeding preparation; (4) a
command that is invalid at pop time or whose preparation fails is
popped, discarded and never executed; (5) over any multi-cycle run
from an invariant-satisfying state, every executed command is valid
and prepared. -/
theorem C1_command_lifecycle (s : LoopState) (inp : CycleInput)
    (h : ActiveOk s) :
    (∀ c fb, LEvent.exec c fb ∈ (mainPhase inp s).2 →
        fb = inp.fb ∧ c.valid = true ∧ c.preparedWith.isSome = true)
    ∧ ActiveOk (mainPhase inp s).1
    ∧ (s.active = none → ∀ c fb, LEvent.exec c fb ∈ (mainPhase inp s).2 →
        ∃ c₀ rest, s.queue = c₀ :: rest ∧ c = prepareForExecution inp.fb c₀ ∧
          c₀.valid = true ∧ c₀.prepFails = false)
    ∧ (∀ c₀ rest, s.active = none → s.queue = c₀ :: rest →
        s.estopActive = false → inp.inOut4 ≠ 0 →
        (c₀.valid = false ∨ c₀.prepFails = true) →
        (mainPhase inp s).1.active = none ∧ (mainPhase inp s).1.queue = rest ∧
          ∀ c fb, LEvent.exec c fb ∉ (mainPhase inp s).2)
    ∧ (∀ inps s₀, ActiveOk s₀ → ∀ c fb,
        LEvent.exec c fb ∈ (loopRun inps s₀).2 →
          c.valid = true ∧ c.preparedWith.isSome = true) := by
  refine ⟨fun c fb hm => mainPhase_exec_valid inp s h c fb hm,
    mainPhase_activeOk inp s h, ?_, ?_, ?_⟩
  · intro hact c fb hm
    obtain ⟨hfb, hd⟩ := mainPhase_exec_sound inp s c fb hm
    rcases hd with ha | ⟨_, c₀, rest, hq, hc, hv, hp⟩
    · rw [hact] at ha
      exact Option.noConfusion ha
    · exact ⟨c₀, rest, hq, hc, hv, hp⟩
  · intro c₀ rest hact hq hes hio hbad
    exact mainPhase_discard inp s c₀ rest hact hq hes hio hbad
  · intro inps s₀ h₀ c fb hm
    exact loopRun_exec_valid inps s₀ h₀ c fb hm

/-- A concrete lifecycle scenario: one tracked, valid command queued,
nothing active, e-stop released. -/
def c1Cmd : LoopCmd := ⟨7, true, false, false, none, 3⟩

def c1State : LoopState :=
  ⟨[c1Cmd], [], none, none, [(7, 42)], false, 255, [0, 0, 0, 0, 0, 0]⟩

def c1Inp : CycleInput := ⟨[], 1, [1, 2, 3, 4, 5, 6], true, false⟩

/-- Witness for C1: the lifecycle invariant holds of the concrete
scenario, and instantiating C1 there yields exec-validity of the
cycle's events. -/
theorem C1_command_lifecycle_witness :
    ActiveOk c1State ∧
      ∀ c fb, LEvent.exec c fb ∈ (mainPhase c1Inp c1State).2 →
        fb = c1Inp.fb ∧ c.valid = true ∧ c.preparedWith.isSome = true := by
  have hA : ActiveOk c1State := by
    intro c hc
    simp [c1State] at hc
  exact ⟨hA, (C1_command_lifecycle c1State c1Inp hA).1⟩

theorem cancelAcks_shape (m : List (Nat × Nat)) (q : List LoopCmd) :
    ∀ e ∈ cancelAcks m q, ∃ i, e = LEvent.ack i AckStatus.cancelled := by
  induction q with
  | nil =>
    intro e he
    simp [cancelAcks] at he
  | cons d rest ih =>
    intro e he
    simp only [cancelAcks] at he
    rcases List.mem_append.mp he with h | h
    · cases hl : m.lookup d.ident with
      | none =>
        rw [hl] at h
        simp at h
      | some i =>
        rw [hl] at h
        simp at h
        exact ⟨i, h⟩
    · exact ih e h

theorem bufferCancelAcks_shape (l : List BufEntry) :
    ∀ e ∈ bufferCancelAcks l, ∃ i, e = LEvent.ack i AckStatus.cancelled := by
  induction l with
  | nil =>
    intro e he
    simp [bufferCancelAcks] at he
  | cons b rest ih =>
    intro e he
    simp only [bufferCancelAcks] at he
    rcases List.mem_append.mp he with h | h
    · cases hc : b.cmdId with
      | none =>
        rw [hc] at h
        simp [ackOpt] at h
      | some i =>
        rw [hc] at h
        simp [ackOpt] at h
        exact ⟨i, h⟩
    · exact ih e h

/-- An active command that was submitted without a tracking id, so
`active_command_id` is `None`. -/
def c2Cmd : LoopCmd := ⟨3, true, false, false, some [0, 0, 0, 0, 0, 0], 5⟩

def c2State : LoopState :=
  ⟨[], [], some c2Cmd, none, [], false, 123, [1, 1, 1, 1, 1, 1]⟩

def c2Inp : CycleInput := ⟨[], 0, [0, 0, 0, 0, 0, 0], true, false⟩

/-- Counterexample to C2 as stated: the e-stop input asserts
(`InOut_in[4] = 0`) while a command is active, yet the cycle emits no
CANCELLED acknowledgment at all — commander.py 1536-1540 sends the
active command's CANCELLED only under `if active_command_id:`, so an
untracked active command is cancelled silently (and likewise queued
commands absent from `command_id_map`). -/
theorem C2_counterexample :
    c2State.active.isSome = true ∧ c2State.estopActive = false ∧
      c2Inp.inOut4 = 0 ∧ (mainPhase c2Inp c2State).2 = [] := by
  refine ⟨rfl, rfl, rfl, ?_⟩
  rfl

/-- C2 (amended): when `InOut_in[4] = 0` asserts with the e-stop latch
clear, the cycle empties the queue and buffer, drops the active
command, clears the tracking map, latches the e-stop, commands a stop
(`Command_out = 102`) with all six speeds zeroed, and emits exactly the
CANCELLED acknowledgments of the *tracked* commands: the active
command's when `active_command_id` is set, then each queued command in
`command_id_map` in queue order, then each buffered command carrying a
cmd_id — an untracked command is cancelled without acknowledgment.
Every emitted event is a CANCELLED acknowledgment.  While the input
stays asserted, or the latch is set without the re-enable key, the
main phase never activates or executes anything; and while the latch
is set, the processing phase never dequeues buffered commands. -/
theorem C2_estop_handling (s : LoopState) (inp : CycleInput) :
    (inp.inOut4 = 0 → s.estopActive = false →
      (mainPhase inp s).1.queue = [] ∧ (mainPhase inp s).1.buffer = [] ∧
      (mainPhase inp s).1.active = none ∧ (mainPhase inp s).1.activeId = none ∧
      (mainPhase inp s).1.idMap = [] ∧
      (mainPhase inp s).1.estopActive = true ∧
      (mainPhase inp s).1.commandOut = 102 ∧
      (mainPhase inp s).1.speedOut = List.replicate 6 0 ∧
      (mainPhase inp s).2 =
        (match s.active, s.activeId with
         | some _, some i => [LEvent.ack i AckStatus.cancelled]
         | _, _ => []) ++ cancelAcks s.idMap s.queue ++
          bufferCancelAcks s.buffer ∧
      (∀ e ∈ (mainPhase inp s).2, ∃ i, e = LEvent.ack i AckStatus.cancelled))
    ∧ (inp.inOut4 = 0 → s.estopActive = true →
      (mainPhase inp s).1.active = none ∧ (mainPhase inp s).2 = [] ∧
      (mainPhase inp s).1.commandOut = 102 ∧
      (mainPhase inp s).1.speedOut = List.replicate 6 0)
    ∧ (inp.inOut4 ≠ 0 → s.estopActive = true → inp.keyRe = false →
      (mainPhase inp s).1.queue = s.queue ∧
      (mainPhase inp s).1.active = s.active ∧ (mainPhase inp s).2 = [] ∧
      (mainPhase inp s).1.commandOut = 255 ∧
      (mainPhase inp s).1.speedOut = List.replicate 6 0 ∧
      (mainPhase inp s).1.estopActive = true)
    ∧ (s.estopActive = true →
      (processPhase inp s).1.queue = s.queue ∧
      (processPhase inp s).1.buffer = s.buffer ∧
      (processPhase inp s).2 = []) := by
  refine ⟨?_, ?_, ?_, ?_⟩
  · intro hio hes
    unfold mainPhase
    rw [if_pos hio, if_neg (by simp [hes])]
    refine ⟨rfl, rfl, rfl, rfl, rfl, rfl, rfl, rfl, rfl, ?_⟩
    intro e he
    rcases List.mem_append.mp he with h1 | h2
    · rcases List.mem_append.mp h1 with h3 | h4
      · cases hsa : s.active with
        | none =>
          rw [hsa] at h3
          simp at h3
        | some d =>
          cases hsi : s.activeId with
          | none =>
            rw [hsa, hsi] at h3
            simp at h3
          | some i =>
            rw [hsa, hsi] at h3
            simp at h3
            exact ⟨i, h3⟩
      · exact cancelAcks_shape s.idMap s.queue e h4
    · exact bufferCancelAcks_shape s.buffer e h2
  · intro hio hes
    unfold mainPhase
    rw [if_pos hio, if_pos hes]
    exact ⟨rfl, rfl, rfl, rfl⟩
  · intro hio hes hk
    unfold mainPhase
    rw [if_neg hio, if_pos hes, if_neg (by simp [hk])]
    exact ⟨rfl, rfl, rfl, rfl, rfl, hes⟩
  · intro hes
    unfold processPhase
    cases hb : s.buffer with
    | nil => exact ⟨rfl, hb, rfl⟩
    | cons e rest =>
      dsimp only
      rw [if_neg (by simp [hes])]
      exact ⟨rfl, hb, rfl⟩

/-- A tracked queued command, a tracked active command, and a tracked
buffered command, all present when the e-stop asserts. -/
def c2WitCmd : LoopCmd := ⟨9, true, false, false, some [0, 0, 0, 0, 0, 0], 4⟩

def c2WitState : LoopState :=
  ⟨[c2WitCmd], [⟨some 5, none, true⟩], some c2Cmd, some 7, [(9, 8)],
    false, 255, [3, 3, 3, 3, 3, 3]⟩

def c2WitState2 : LoopState :=
  ⟨[c2WitCmd], [⟨some 6, none, true⟩], none, none, [], true, 102,
    [0, 0, 0, 0, 0, 0]⟩

def c2WitInp : CycleInput := ⟨[], 0, [0, 0, 0, 0, 0, 0], true, false⟩

def c2WitInp2 : CycleInput := ⟨[], 1, [0, 0, 0, 0, 0, 0], true, false⟩

/-- Witness for C2 (amended), instantiated at concrete states: the
e-stop edge empties the queue, latches, and acknowledges exactly the
tracked active (id 7), queued (id 8) and buffered (id 5) commands;
a latched cycle with the input still asserted stays stopped; a latched
cycle with the input released idles at 255; the processing phase stays
gated. -/
theorem C2_estop_handling_witness :
    (mainPhase c2WitInp c2WitState).1.queue = [] ∧
    (mainPhase c2WitInp c2WitState).1.estopActive = true ∧
    (mainPhase c2WitInp c2WitState).1.speedOut = List.replicate 6 0 ∧
    (mainPhase c2WitInp c2WitState).2 =
      [LEvent.ack 7 AckStatus.cancelled, LEvent.ack 8 AckStatus.cancelled,
        LEvent.ack 5 AckStatus.cancelled] ∧
    (mainPhase c2WitInp c2WitState2).1.commandOut = 102 ∧
    (mainPhase c2WitInp2 c2WitState2).2 = [] ∧
    (mainPhase c2WitInp2 c2WitState2).1.commandOut = 255 ∧
    (processPhase c2WitInp2 c2WitState2).2 = [] := by
  obtain ⟨q1, b1, a1, ai1, m1, es1, co1, sp1, ev1, sh1⟩ :=
    (C2_estop_handling c2WitState c2WitInp).1 rfl rfl
  obtain ⟨a2, ev2, co2, sp2⟩ :=
    (C2_estop_handling c2WitState2 c2WitInp).2.1 rfl rfl
  obtain ⟨q3, a3, ev3, co3, sp3, es3⟩ :=
    (C2_estop_handling c2WitState2 c2WitInp2).2.2.1 (by decide) rfl rfl
  obtain ⟨q4, b4, ev4⟩ :=
    (C2_estop_handling c2WitState2 c2WitInp2).2.2.2 rfl
  refine ⟨q1, es1, sp1, ?_, co2, ev3, co3, ev4⟩
  rw [ev1]
  rfl

end Parol6
